import Mathlib

/-
Verification development for the AI-agent software-team repository.

The repository is Python; we give a shallow embedding of the pieces of code
the claims are about, working over `List Char` and `String`:

- `src/tools/base.py`: `ToolResult` and its `ok` / `fail` constructors.
- `src/ai_agent_team.py`: the review-flag derivation in `reviewing_agent`,
  `revision_decision` and `should_continue`.
- `src/tools/generators/csharp_generator.py` and `python_generator.py`:
  `_get_folder_name` and the C# project assembly (`execute`).
- `src/tools/utilities/code_cleaner.py`: `CodeCleanerTool._clean_code` with its
  helper passes, and `CodeSplitterTool._split_csharp` / `_split_python`.
- `src/tools/build.py`: `BuildTool.execute` / `_build_csharp` / `_build_python`
  with their error parsing, and `BuildAndFixAgent.build_and_fix`.

Conventions of the embedding:
- Python `re.sub` / `re.finditer` calls are embedded as dedicated scanner
  functions, one per concrete pattern, implementing the leftmost,
  non-overlapping match semantics of that particular pattern.  Each scanner
  carries a doc comment citing the pattern it implements.
- Effectful library calls (`subprocess.run`, `os.listdir`, `os.walk`, the LLM
  backend) are modelled as oracle parameters; pure `os.path` helpers
  (`normpath`, `basename`, `dirname`, `join`, `relpath`) are embedded as the
  posixpath string functions they are on the target platform.
- Python exceptions are modelled with `Except`: a function that can propagate
  an uncaught exception returns `Except PyExn _`.
- Machine integers do not occur; Python `int` values in the embedded code are
  counters and line numbers, embedded as `Nat` (an `Int` is used for the brace
  counter of the class splitter, which can go below zero).
- Python `str.strip`, `str.upper`, `str.lower` and the `\s` class are embedded
  for the ASCII range, which covers every string the embedded code manipulates.
-/

/-! ## Basic character and string helpers (ASCII fragment of the Python ones) -/

/-- Characters recognised by Python `str.strip()` and the regex class `\s`
(ASCII fragment): space, tab, newline, carriage return, vertical tab, form feed. -/
def pySpace (c : Char) : Bool :=
  c = ' ' || c = '\t' || c = '\n' || c = '\r' || c = Char.ofNat 11 || c = Char.ofNat 12

/-- Backquote character (written by code point to keep it out of the source text). -/
def tickChar : Char := Char.ofNat 96

/-- Apostrophe character (written by code point to keep it out of the source text). -/
def aposChar : Char := Char.ofNat 39

/-- Lower-case an ASCII letter, leave every other character unchanged
(ASCII fragment of Python `str.lower`). -/
def lowerC (c : Char) : Char :=
  if 'A' ≤ c ∧ c ≤ 'Z' then Char.ofNat (c.toNat + 32) else c

/-- Upper-case an ASCII letter, leave every other character unchanged
(ASCII fragment of Python `str.upper`). -/
def upperC (c : Char) : Char :=
  if 'a' ≤ c ∧ c ≤ 'z' then Char.ofNat (c.toNat - 32) else c

/-- Strip `pySpace` characters from both ends of a character list
(Python `str.strip()`). -/
def stripL (l : List Char) : List Char :=
  ((l.dropWhile pySpace).reverse.dropWhile pySpace).reverse

/-- String version of `stripL`. -/
def pyStrip (s : String) : String := ⟨stripL s.data⟩

/-- Upper-case a whole string, ASCII letters only (Python `str.upper()`). -/
def asciiUpper (s : String) : String := ⟨s.data.map upperC⟩

/-- Lower-case a whole string, ASCII letters only (Python `str.lower()`). -/
def asciiLower (s : String) : String := ⟨s.data.map lowerC⟩

/-- Boolean prefix test on character lists (Python `str.startswith`). -/
def isPrefixOfL : List Char → List Char → Bool
  | [], _ => true
  | _ :: _, [] => false
  | c :: p, d :: l => decide (c = d) && isPrefixOfL p l

/-- Boolean suffix test on character lists (Python `str.endswith`). -/
def isSuffixOfL (p l : List Char) : Bool :=
  isPrefixOfL p.reverse l.reverse

/-- Case-insensitive prefix test (used for patterns compiled with `re.IGNORECASE`). -/
def isPrefixOfCiL : List Char → List Char → Bool
  | [], _ => true
  | _ :: _, [] => false
  | c :: p, d :: l => decide (lowerC c = lowerC d) && isPrefixOfCiL p l

/-- Substring containment (Python `needle in haystack` on strings). -/
def containsSub (needle : List Char) : List Char → Bool
  | [] => isPrefixOfL needle []
  | c :: t => isPrefixOfL needle (c :: t) || containsSub needle t

/-- String version of `containsSub`: Python `sub in s`. -/
def containsSubS (s needleStr : String) : Bool := containsSub needleStr.data s.data

/-- Split a character list on a separator character, keeping empty pieces
(Python `str.split(sep)` for a one-character separator). -/
def splitSepL (sep : Char) : List Char → List (List Char)
  | [] => [[]]
  | c :: t =>
    let rest := splitSepL sep t
    if c = sep then [] :: rest
    else
      match rest with
      | [] => [[c]]
      | piece :: more => (c :: piece) :: more

/-- Join character lists with a separator character (Python `sep.join(parts)`). -/
def joinSepL (sep : Char) : List (List Char) → List Char
  | [] => []
  | [piece] => piece
  | piece :: more => piece ++ sep :: joinSepL sep more

/-- Split a string on newline characters (Python `s.split('\n')`). -/
def splitNl (s : String) : List String := (splitSepL '\n' s.data).map (fun l => ⟨l⟩)

/-- Join strings with newlines (Python `'\n'.join(parts)`). -/
def joinNl (parts : List String) : String := ⟨joinSepL '\n' (parts.map String.data)⟩

/-- First line of a character list: everything before the first newline. -/
def firstLineL (l : List Char) : List Char := l.takeWhile (fun c => decide (c ≠ '\n'))

/-- Word characters of the regex class `\w` (ASCII fragment). -/
def isWordChar (c : Char) : Bool := c.isAlpha || c.isDigit || c = '_'

/-- Characters of the regex class `[\w\.]` (ASCII fragment). -/
def isWordDot (c : Char) : Bool := isWordChar c || c = '.'

/-- Digits-to-number conversion (Python `int` on a nonempty digit string). -/
def digitsToNat (l : List Char) : Nat :=
  l.foldl (fun acc c => acc * 10 + (c.toNat - '0'.toNat)) 0

/-- Repeat a character `n` times (Python `ch * n`). -/
def repChar (c : Char) (n : Nat) : List Char := List.replicate n c

/-! ## `src/tools/base.py`: `ToolResult`

The Python class has an untyped `data: Optional[Any]` payload; the embedding
makes the payload type a parameter `α`.  `ok` and `fail` mirror the two
classmethod constructors, including the Python truthiness of
`errors or [message]` and `files_created or []` (an explicit empty list behaves
like an omitted argument). -/

structure ToolResult (α : Type) where
  success : Bool
  message : String
  data : Option α
  files_created : List String
  errors : List String
deriving DecidableEq, Repr

/-- Embeds `ToolResult.ok` from `src/tools/base.py`. -/
def ToolResult.ok {α : Type} (message : String) (data : Option α)
    (files_created : Option (List String)) : ToolResult α :=
  { success := true
    message := message
    data := data
    files_created :=
      match files_created with
      | none => []
      | some l => l
    errors := [] }

/-- Embeds `ToolResult.fail` from `src/tools/base.py`; `errors or [message]`
falls back to `[message]` for both an omitted and an empty error list. -/
def ToolResult.fail {α : Type} (message : String) (errors : Option (List String)) :
    ToolResult α :=
  { success := false
    message := message
    data := none
    files_created := []
    errors :=
      match errors with
      | none => [message]
      | some [] => [message]
      | some es => es }

/-! ## `src/ai_agent_team.py`: review flag, decision node, transition guard -/

/-- Final-output record built by `revision_decision` (the Python dict literal). -/
structure FinalOutput where
  requirement : String
  plan : String
  code : String
  tests : String
  review : String
  iterations : Nat
  status : String
deriving DecidableEq, Repr

/-- Embeds the `AgentState` TypedDict of `src/ai_agent_team.py`.  The
`messages` field (a list of LangChain message objects that no claim touches)
is omitted. -/
structure AgentState where
  requirement : String
  plan : String
  code : String
  tests : String
  review : String
  iteration_count : Nat
  needs_revision : Bool
  final_output : Option FinalOutput
deriving DecidableEq, Repr

/-- Embeds the review-flag derivation of `AIAgentTeam.reviewing_agent`:
`review.strip().upper().startswith("NEEDS_REVISION")`. -/
def needs_revision_flag (review : String) : Bool :=
  isPrefixOfL "NEEDS_REVISION".data (asciiUpper (pyStrip review)).data

/-- Modelled from the spec: the claimed review-flag derivation, in which the
review text's FIRST LINE, trimmed and case-normalized, must EQUAL the fixed
marker `NEEDS_REVISION`.  This definition follows the claim's words and is
compared against `needs_revision_flag`, which follows the source. -/
def spec_needs_revision (review : String) : Bool :=
  decide ((stripL (firstLineL review.data)).map upperC = "NEEDS_REVISION".data)

/-- Embeds `AIAgentTeam.revision_decision`. -/
def revision_decision (state : AgentState) : AgentState :=
  let iteration := state.iteration_count + 1
  if state.needs_revision = false ∨ 3 ≤ iteration then
    { state with
      iteration_count := iteration
      needs_revision := false
      final_output := some
        { requirement := state.requirement
          plan := state.plan
          code := state.code
          tests := state.tests
          review := state.review
          iterations := iteration
          status := if state.needs_revision = false then "approved" else "max_iterations_reached" } }
  else
    { state with iteration_count := iteration }

/-- Embeds `AIAgentTeam.should_continue`. -/
def should_continue (state : AgentState) : String :=
  if state.needs_revision = true ∧ state.iteration_count < 3 then "revise" else "complete"

/-! ## posixpath helpers used by the generators and the build tool

These embed the pure-string functions of CPython `posixpath` (the `os.path`
implementation on the target platform) that the repository calls:
`normpath`, `basename`, `dirname`, `join`, `relpath`, `abspath`. -/

/-- Embeds `posixpath.normpath` component processing: the loop body over
`path.split('/')`, with the accumulator kept reversed (`racc`). -/
def normpathComps (initialSlashes : Nat) : List (List Char) → List (List Char) → List (List Char)
  | racc, [] => racc.reverse
  | racc, comp :: more =>
    if comp = [] ∨ comp = ['.'] then normpathComps initialSlashes racc more
    else if comp ≠ ['.', '.'] ∨ (initialSlashes = 0 ∧ racc = []) ∨ racc.head? = some ['.', '.'] then
      normpathComps initialSlashes (comp :: racc) more
    else
      match racc with
      | [] => normpathComps initialSlashes [] more
      | _ :: raccTail => normpathComps initialSlashes raccTail more

/-- Embeds `posixpath.normpath` on character lists. -/
def normpathL (path : List Char) : List Char :=
  if path = [] then ['.']
  else
    let initialSlashes : Nat :=
      if isPrefixOfL ['/'] path then
        if isPrefixOfL ['/', '/'] path ∧ ¬ isPrefixOfL ['/', '/', '/'] path then 2 else 1
      else 0
    let comps := splitSepL '/' path
    let newComps := normpathComps initialSlashes [] comps
    let joined := repChar '/' initialSlashes ++ joinSepL '/' newComps
    if joined = [] then ['.'] else joined

/-- Embeds `posixpath.basename`: the part after the final slash. -/
def basenameL (path : List Char) : List Char :=
  (path.reverse.takeWhile (fun c => decide (c ≠ '/'))).reverse

/-- Embeds `posixpath.dirname`: the part before the final slash, with trailing
slashes stripped unless the head is all slashes. -/
def dirnameL (path : List Char) : List Char :=
  if containsSub ['/'] path = false then []
  else
    let head := (path.reverse.dropWhile (fun c => decide (c ≠ '/'))).reverse
    if head ≠ [] ∧ head.all (fun c => decide (c = '/')) then head
    else (head.reverse.dropWhile (fun c => decide (c = '/'))).reverse

/-- Embeds the two-argument `posixpath.join`. -/
def pyJoinL (a b : List Char) : List Char :=
  if isPrefixOfL ['/'] b then b
  else if a = [] ∨ isSuffixOfL ['/'] a then a ++ b
  else a ++ '/' :: b

/-- String version of `pyJoinL` (Python `os.path.join(a, b)`). -/
def pyJoin (a b : String) : String := ⟨pyJoinL a.data b.data⟩

/-- Embeds `posixpath.abspath` given the process working directory `cwd`. -/
def abspathL (cwd path : List Char) : List Char :=
  if isPrefixOfL ['/'] path then normpathL path else normpathL (pyJoinL cwd path)

/-- Length of the longest common prefix of two lists (`posixpath.commonprefix`
on the component lists inside `relpath`). -/
def commonPrefixLen : List (List Char) → List (List Char) → Nat
  | a :: as_, b :: bs => if a = b then commonPrefixLen as_ bs + 1 else 0
  | _, _ => 0

/-- Embeds `posixpath.relpath path start` given the process working directory.
Python raises `ValueError` on an empty `path`; the embedding returns `none`
in that case (the caller propagates it as an exception). -/
def relpathL (cwd path start : List Char) : Option (List Char) :=
  if path = [] then none
  else
    let startList := (splitSepL '/' (abspathL cwd start)).filter (fun x => decide (x ≠ []))
    let pathList := (splitSepL '/' (abspathL cwd path)).filter (fun x => decide (x ≠ []))
    let i := commonPrefixLen startList pathList
    let relList := List.replicate (startList.length - i) ['.', '.'] ++ pathList.drop i
    if relList = [] then some ['.']
    else some (joinSepL '/' relList)

/-! ## `_get_folder_name` of the two project generators -/

/-- Characters kept by the C# generator sanitizer `re.sub(r'[^a-zA-Z0-9_.]', '', ...)`. -/
def csNameChar (c : Char) : Bool := c.isAlpha || c.isDigit || c = '_' || c = '.'

/-- Raw leaf name that `_get_folder_name` starts from (both generator
variants): `os.path.basename(os.path.normpath(project_dir))`, falling back to
`os.path.basename(os.path.dirname(project_dir))` when empty. -/
def folderLeafName (project_dir : String) : List Char :=
  let folderName := basenameL (normpathL project_dir.data)
  if folderName = [] then basenameL (dirnameL project_dir.data) else folderName

/-- Coercion step of `CSharpProjectGeneratorTool._get_folder_name`: prepend
`App` when the sanitized name does not start with a letter. -/
def csFixStart (folderName : List Char) : List Char :=
  if folderName ≠ [] ∧ ¬ (folderName.headI.isAlpha) then 'A' :: 'p' :: 'p' :: folderName
  else folderName

/-- Fallback step of `CSharpProjectGeneratorTool._get_folder_name`. -/
def csFallback (folderName : List Char) : List Char :=
  if folderName = [] then "GeneratedApp".data else folderName

/-- Embeds `CSharpProjectGeneratorTool._get_folder_name`: leaf name, sanitize,
coerce to letter start, fallback, cap at 50 characters. -/
def get_folder_name_cs (project_dir : String) : String :=
  ⟨(csFallback (csFixStart ((folderLeafName project_dir).filter csNameChar))).take 50⟩

/-- Sanitizer of `PythonProjectGeneratorTool._get_folder_name`:
`re.sub(r'[^a-zA-Z0-9_]', '_', ...).lower()`. -/
def pySanitize (folderName : List Char) : List Char :=
  (folderName.map (fun c => if isWordChar c then c else '_')).map lowerC

/-- Coercion step of `PythonProjectGeneratorTool._get_folder_name`. -/
def pyFixStart (folderName : List Char) : List Char :=
  if folderName ≠ [] ∧ ¬ (folderName.headI.isAlpha) then 'a' :: 'p' :: 'p' :: '_' :: folderName
  else folderName

/-- Fallback step of `PythonProjectGeneratorTool._get_folder_name`. -/
def pyFallback (folderName : List Char) : List Char :=
  if folderName = [] then "generated_app".data else folderName

/-- Embeds `PythonProjectGeneratorTool._get_folder_name`. -/
def get_folder_name_py (project_dir : String) : String :=
  ⟨(pyFallback (pyFixStart (pySanitize (folderLeafName project_dir)))).take 50⟩

/-- Well-formedness of a C# project name as claimed: nonempty, starts with a
letter, at most 50 characters, all characters from the generator's charset. -/
def csNameOkL (l : List Char) : Bool :=
  decide (l ≠ []) && l.headI.isAlpha && decide (l.length ≤ 50) && l.all csNameChar

/-- String version of `csNameOkL`. -/
def csNameOk (s : String) : Bool := csNameOkL s.data

/-- Well-formedness of a Python package name as claimed (the Python generator
lower-cases, so its charset is lower-case letters, digits and underscore). -/
def pyNameOkL (l : List Char) : Bool :=
  decide (l ≠ []) && l.headI.isAlpha && decide (l.length ≤ 50)
    && l.all (fun c => c.isLower || c.isDigit || c = '_')

/-- String version of `pyNameOkL`. -/
def pyNameOk (s : String) : Bool := pyNameOkL s.data

/-! ## `src/tools/build.py`: `BuildAndFixAgent.build_and_fix`

The loop drives two external effects: the build verifier (a `BuildTool.execute`
call whose outcome depends on the compiler process) and the LLM fix call
`_ask_llm_to_fix`.  Both are modelled as oracles, exactly as the specification
states the property (with a "Build Verifier stub"): `buildOk i` is the success
flag of the build invoked on loop iteration `i`, `errorsFor i` the
`errors_for_llm` payload of that build result, and `askFix code errors` the
value `_ask_llm_to_fix(code, errors, language)` returns.  `fixCalls` is a
ghost counter incremented exactly where the Python code invokes
`_ask_llm_to_fix`; the `context.working_files` update has no observable effect
on the loop and is not tracked. -/

structure FixLoopResult where
  success : Bool
  code : String
  fixCalls : Nat
deriving DecidableEq, Repr

/-- Embeds the `for iteration in range(1, self.max_iterations + 1)` loop of
`BuildAndFixAgent.build_and_fix`; the list argument is the remaining iteration
numbers.  An exhausted list is the fall-through `return False, current_code,
build_result` after the loop. -/
def build_and_fix_loop (maxIterations : Nat) (buildOk : Nat → Bool) (errorsFor : Nat → String)
    (askFix : String → String → String) : List Nat → String → Nat → FixLoopResult
  | [], currentCode, calls => ⟨false, currentCode, calls⟩
  | iteration :: rest, currentCode, calls =>
    if buildOk iteration then ⟨true, currentCode, calls⟩
    else if maxIterations ≤ iteration then ⟨false, currentCode, calls⟩
    else
      let errorsForLlm := errorsFor iteration
      let fixedCode := askFix currentCode errorsForLlm
      let retried : String × Nat :=
        if fixedCode = "" ∨ fixedCode = currentCode then
          (askFix currentCode (errorsForLlm ++ "\n\nCRITICAL: You MUST provide corrected code!"),
            calls + 2)
        else (fixedCode, calls + 1)
      build_and_fix_loop maxIterations buildOk errorsFor askFix rest retried.1 retried.2

/-- Embeds `BuildAndFixAgent.build_and_fix` over the oracles described above. -/
def build_and_fix (maxIterations : Nat) (buildOk : Nat → Bool) (errorsFor : Nat → String)
    (askFix : String → String → String) (code : String) : FixLoopResult :=
  build_and_fix_loop maxIterations buildOk errorsFor askFix (List.range' 1 maxIterations) code 0

/-- Unfolds one failing, non-final loop iteration whose fix call returns fresh
nonempty code (so the stagnation retry does not fire). -/
lemma build_and_fix_loop_step_fail (N i : Nat) (bo : Nat → Bool) (ef : Nat → String)
    (af : String → String → String) (rest : List Nat) (cur : String) (calls : Nat)
    (hbo : bo i = false) (hi : i < N)
    (hne : af cur (ef i) ≠ "" ∧ af cur (ef i) ≠ cur) :
    build_and_fix_loop N bo ef af (i :: rest) cur calls =
      build_and_fix_loop N bo ef af rest (af cur (ef i)) (calls + 1) := by
  simp [build_and_fix_loop, hbo, Nat.not_le.mpr hi, hne.1, hne.2]

/-- Unfolds a loop iteration whose build succeeds. -/
lemma build_and_fix_loop_step_ok (N i : Nat) (bo : Nat → Bool) (ef : Nat → String)
    (af : String → String → String) (rest : List Nat) (cur : String) (calls : Nat)
    (hbo : bo i = true) :
    build_and_fix_loop N bo ef af (i :: rest) cur calls = ⟨true, cur, calls⟩ := by
  simp [build_and_fix_loop, hbo]

/-- Unfolds the final loop iteration when its build fails: the loop returns
without a further fix call. -/
lemma build_and_fix_loop_step_last (N i : Nat) (bo : Nat → Bool) (ef : Nat → String)
    (af : String → String → String) (rest : List Nat) (cur : String) (calls : Nat)
    (hbo : bo i = false) (hi : N ≤ i) :
    build_and_fix_loop N bo ef af (i :: rest) cur calls = ⟨false, cur, calls⟩ := by
  simp [build_and_fix_loop, hbo, hi]

/-- Always-failing builds: running the loop over iterations `start .. N`
performs one fix call per iteration except the last. -/
lemma build_and_fix_loop_all_fail (N : Nat) (ef : Nat → String)
    (af : String → String → String) (hfix : ∀ c e, af c e ≠ "" ∧ af c e ≠ c) :
    ∀ (k start : Nat) (cur : String) (calls : Nat), 1 ≤ k → start + k = N + 1 →
      (build_and_fix_loop N (fun _ => false) ef af (List.range' start k) cur calls).success
          = false ∧
        (build_and_fix_loop N (fun _ => false) ef af (List.range' start k) cur calls).fixCalls
          = calls + (k - 1) := by
  intro k
  induction k with
  | zero => intro start cur calls hk; omega
  | succ k ih =>
    intro start cur calls _ hsum
    match k, ih with
    | 0, _ =>
      have hstart : N ≤ start := by omega
      rw [show List.range' start 1 = [start] from rfl,
        build_and_fix_loop_step_last N start _ ef af [] cur calls rfl hstart]
      exact ⟨rfl, rfl⟩
    | k + 1, ih =>
      rw [List.range'_succ,
        build_and_fix_loop_step_fail N start _ ef af _ cur calls rfl (by omega) (hfix _ _)]
      have h := ih (start + 1) (af cur (ef start)) (calls + 1) (by omega) (by omega)
      exact ⟨h.1, by rw [h.2]; omega⟩

/-- Claim C1, amended (the loop makes one fix call fewer than the claim states).  With a build
verifier that always fails, `build_and_fix` with configured maximum `N ≥ 1`
makes exactly `N - 1` fix calls (the fix step is skipped on the final
iteration) and reports failure; with a verifier that fails twice and succeeds
on the third invocation, it makes exactly 2 fix calls and reports success.
Both parts assume a fix oracle that always returns nonempty code different
from its input, so the stagnation retry never fires. -/
theorem build_and_fix_call_counts (N : Nat) (hN : 1 ≤ N) (ef : Nat → String)
    (af : String → String → String) (code : String)
    (hfix : ∀ c e, af c e ≠ "" ∧ af c e ≠ c) :
    ((build_and_fix N (fun _ => false) ef af code).success = false ∧
      (build_and_fix N (fun _ => false) ef af code).fixCalls = N - 1) ∧
    (3 ≤ N →
      (build_and_fix N (fun i => decide (i = 3)) ef af code).success = true ∧
      (build_and_fix N (fun i => decide (i = 3)) ef af code).fixCalls = 2) := by
  constructor
  · have h := build_and_fix_loop_all_fail N ef af hfix N 1 code 0 hN (by omega)
    exact ⟨h.1, by rw [build_and_fix, h.2]; omega⟩
  · intro h3
    obtain ⟨m, rfl⟩ : ∃ m, N = m + 3 := ⟨N - 3, by omega⟩
    have hr : List.range' 1 (m + 3) = 1 :: 2 :: 3 :: List.range' 4 m := by
      rw [show m + 3 = (m + 2) + 1 from rfl, List.range'_succ,
        show m + 2 = (m + 1) + 1 from rfl, List.range'_succ,
        show m + 1 = m + 1 from rfl, List.range'_succ]
    rw [build_and_fix, hr,
      build_and_fix_loop_step_fail _ 1 _ ef af _ code 0 rfl (by omega) (hfix _ _),
      build_and_fix_loop_step_fail _ 2 _ ef af _ _ 1 rfl (by omega) (hfix _ _),
      build_and_fix_loop_step_ok _ 3 _ ef af _ _ 2 rfl]
    exact ⟨rfl, rfl⟩

/-- Helper for witnesses: appending a character yields a different, nonempty
string (a non-stagnating fix oracle). -/
lemma append_x_ne (c : String) : c ++ "x" ≠ "" ∧ c ++ "x" ≠ c := by
  constructor <;> intro h <;> have hl := congrArg String.length h <;>
    rw [String.length_append, show ("x".length) = 1 by decide] at hl
  · rw [show ("".length) = 0 by decide] at hl
    omega
  · omega

/-- Claim C1 witness for `build_and_fix_call_counts` at `N = 3` with the fix oracle
that appends one character. -/
theorem build_and_fix_call_counts_witness :
    ((build_and_fix 3 (fun _ => false) (fun _ => "E") (fun c _ => c ++ "x") "a").success = false ∧
      (build_and_fix 3 (fun _ => false) (fun _ => "E") (fun c _ => c ++ "x") "a").fixCalls
        = 3 - 1) ∧
    ((build_and_fix 3 (fun i => decide (i = 3)) (fun _ => "E") (fun c _ => c ++ "x") "a").success
        = true ∧
      (build_and_fix 3 (fun i => decide (i = 3)) (fun _ => "E") (fun c _ => c ++ "x") "a").fixCalls
        = 2) := by
  have h := build_and_fix_call_counts 3 (by omega) (fun _ => "E") (fun c _ => c ++ "x") "a"
    (fun c _ => append_x_ne c)
  exact ⟨h.1, h.2 (by omega)⟩

/-- Claim C1 counterexample to the claim as stated: with `N = 3` and an
always-failing build verifier, the loop makes 2 fix calls, not 3. -/
theorem build_and_fix_always_fail_not_three_calls :
    (build_and_fix 3 (fun _ => false) (fun _ => "E") (fun c _ => c ++ "x") "a").success = false ∧
    (build_and_fix 3 (fun _ => false) (fun _ => "E") (fun c _ => c ++ "x") "a").fixCalls = 2 ∧
    (build_and_fix 3 (fun _ => false) (fun _ => "E") (fun c _ => c ++ "x") "a").fixCalls ≠ 3 := by
  decide

/-! ## Theorems on the review flag (claim about `reviewing_agent`) -/

/-- Prefix tests against a newline-free pattern only see the first line. -/
lemma firstLineL_cons (d : Char) (l : List Char) :
    firstLineL (d :: l) = if d = '\n' then [] else d :: firstLineL l := by
  rw [firstLineL, List.takeWhile_cons]
  by_cases hd : d = '\n' <;> simp [hd, firstLineL]

lemma isPrefixOfL_firstLine (p : List Char) (hp : '\n' ∉ p) :
    ∀ l : List Char, isPrefixOfL p (firstLineL l) = isPrefixOfL p l := by
  induction p with
  | nil => intro l; rfl
  | cons c p ih =>
    intro l
    match l with
    | [] => rfl
    | d :: l =>
      have hp' : '\n' ∉ p := fun h => hp (List.mem_cons_of_mem c h)
      rw [firstLineL_cons]
      by_cases hd : d = '\n'
      · rw [if_pos hd]
        subst hd
        have hc : decide (c = '\n') = false :=
          decide_eq_false (fun h => hp (h ▸ List.mem_cons_self c p))
        show isPrefixOfL (c :: p) [] = isPrefixOfL (c :: p) ('\n' :: l)
        simp [isPrefixOfL, hc]
      · rw [if_neg hd]
        show isPrefixOfL (c :: p) (d :: firstLineL l) = isPrefixOfL (c :: p) (d :: l)
        simp only [isPrefixOfL]
        rw [ih hp' l]

/-- Claim C4, amended: the flag is set iff the stripped, upper-cased
review text BEGINS WITH the marker `NEEDS_REVISION` — equivalently, iff its
first line begins with the marker (not: equals it). -/
theorem needs_revision_flag_prefix_of_first_line (review : String) :
    needs_revision_flag review =
      isPrefixOfL "NEEDS_REVISION".data (firstLineL (asciiUpper (pyStrip review)).data) := by
  rw [needs_revision_flag, isPrefixOfL_firstLine]
  decide

/-- Claim C4 counterexample to the claim as stated: a first line that merely begins
with the marker (`NEEDS_REVISION: ...`) sets the flag in the source, while
the claimed first-line equality test does not. -/
theorem needs_revision_flag_counterexample :
    needs_revision_flag "NEEDS_REVISION: rename the variables" = true ∧
    spec_needs_revision "NEEDS_REVISION: rename the variables" = false := by
  decide

/-! ## Theorem on the decision node and transition guard -/

/-- Claim C5: with the revision flag set, `should_continue`
routes to "revise" at `iteration_count = 2` and to "complete" at
`iteration_count = 3`; `revision_decision`, finalizing at the cap with the
flag still set, emits status `max_iterations_reached` and clears the flag. -/
theorem should_continue_and_revision_decision_at_cap :
    should_continue
      { requirement := "r", plan := "p", code := "c", tests := "t", review := "v",
        iteration_count := 2, needs_revision := true, final_output := none } = "revise" ∧
    should_continue
      { requirement := "r", plan := "p", code := "c", tests := "t", review := "v",
        iteration_count := 3, needs_revision := true, final_output := none } = "complete" ∧
    (revision_decision
      { requirement := "r", plan := "p", code := "c", tests := "t", review := "v",
        iteration_count := 2, needs_revision := true, final_output := none }).needs_revision
        = false ∧
    (revision_decision
      { requirement := "r", plan := "p", code := "c", tests := "t", review := "v",
        iteration_count := 2, needs_revision := true, final_output := none }).final_output
      = some
        { requirement := "r", plan := "p", code := "c", tests := "t", review := "v",
          iterations := 3, status := "max_iterations_reached" } := by
  decide

/-! ## Theorem on the `ToolResult` constructors -/

/-- Claim C9: `ToolResult.fail` always yields `success = false`
with a nonempty error list, defaulting to `[message]`; `ok` always yields
`success = true` with an empty error list. -/
theorem tool_result_constructor_invariants (α : Type) (message : String)
    (eo : Option (List String)) (d : Option α) (fc : Option (List String)) :
    (ToolResult.fail message eo : ToolResult α).success = false ∧
    (ToolResult.fail message eo : ToolResult α).errors ≠ [] ∧
    (ToolResult.fail message none : ToolResult α).errors = [message] ∧
    (ToolResult.ok message d fc).success = true ∧
    (ToolResult.ok message d fc).errors = [] := by
  refine ⟨rfl, ?_, rfl, rfl, rfl⟩
  match eo with
  | none => simp [ToolResult.fail]
  | some [] => simp [ToolResult.fail]
  | some (e :: es) => simp [ToolResult.fail]

/-! ## Theorems on `_get_folder_name` -/

/-- Character order agrees with the order of the underlying code points. -/
lemma char_le_iff_toNat (a b : Char) : a ≤ b ↔ a.toNat ≤ b.toNat := by
  rw [Char.le_def, UInt32.le_def, BitVec.le_def]
  exact Iff.rfl

/-- Numeric characterisation of `Char.isUpper`. -/
lemma isUpper_iff_toNat (c : Char) : c.isUpper = true ↔ 65 ≤ c.toNat ∧ c.toNat ≤ 90 := by
  simp only [Char.isUpper, Bool.and_eq_true, decide_eq_true_eq, ge_iff_le, UInt32.le_def,
    BitVec.le_def]
  exact Iff.rfl

/-- Numeric characterisation of `Char.isLower`. -/
lemma isLower_iff_toNat (c : Char) : c.isLower = true ↔ 97 ≤ c.toNat ∧ c.toNat ≤ 122 := by
  simp only [Char.isLower, Bool.and_eq_true, decide_eq_true_eq, ge_iff_le, UInt32.le_def,
    BitVec.le_def]
  exact Iff.rfl

/-- Numeric characterisation of `Char.isDigit`. -/
lemma isDigit_iff_toNat (c : Char) : c.isDigit = true ↔ 48 ≤ c.toNat ∧ c.toNat ≤ 57 := by
  simp only [Char.isDigit, Bool.and_eq_true, decide_eq_true_eq, ge_iff_le, UInt32.le_def,
    BitVec.le_def]
  exact Iff.rfl

/-- `lowerC` is the identity outside the upper-case range. -/
lemma lowerC_eq_of_not_upper (c : Char) (h : ¬ (65 ≤ c.toNat ∧ c.toNat ≤ 90)) :
    lowerC c = c := by
  rw [lowerC, if_neg]
  intro hc
  exact h ⟨(char_le_iff_toNat 'A' c).mp hc.1, (char_le_iff_toNat c 'Z').mp hc.2⟩

/-- `lowerC` shifts an upper-case code point by 32. -/
lemma lowerC_toNat_of_upper (c : Char) (h : 65 ≤ c.toNat ∧ c.toNat ≤ 90) :
    (lowerC c).toNat = c.toNat + 32 := by
  rw [lowerC, if_pos ⟨(char_le_iff_toNat 'A' c).mpr h.1, (char_le_iff_toNat c 'Z').mpr h.2⟩]
  have hvalid : Nat.isValidChar (c.toNat + 32) := Or.inl (by omega)
  rw [Char.ofNat, dif_pos hvalid]
  simp [Char.ofNatAux, Char.toNat, UInt32.toNat]

/-- The per-character effect of the Python generator sanitizer: every output
character is a lower-case letter, a digit or an underscore. -/
lemma lowerC_wordChar_ok (a : Char) :
    ((lowerC (if isWordChar a then a else '_')).isLower
      || (lowerC (if isWordChar a then a else '_')).isDigit
      || decide (lowerC (if isWordChar a then a else '_') = '_')) = true := by
  by_cases hw : isWordChar a = true
  · rw [if_pos hw]
    simp only [Bool.or_eq_true, decide_eq_true_eq]
    have hw' := hw
    simp only [isWordChar, Char.isAlpha, Bool.or_eq_true, decide_eq_true_eq] at hw'
    rcases hw' with ((hup | hlo) | hd) | heq
    · left; left
      have h65 := (isUpper_iff_toNat a).mp hup
      have h32 := lowerC_toNat_of_upper a h65
      exact (isLower_iff_toNat _).mpr ⟨by omega, by omega⟩
    · left; left
      have h97 := (isLower_iff_toNat a).mp hlo
      rw [lowerC_eq_of_not_upper a (by omega)]
      exact hlo
    · left; right
      have h48 := (isDigit_iff_toNat a).mp hd
      rw [lowerC_eq_of_not_upper a (by omega)]
      exact hd
    · right
      subst heq
      decide
  · rw [if_neg hw]
    decide

/-- Sanitized Python names use only lower-case letters, digits and underscore. -/
lemma pySanitize_chars (raw : List Char) :
    ∀ c ∈ pySanitize raw, (c.isLower || c.isDigit || decide (c = '_')) = true := by
  intro c hc
  rw [pySanitize] at hc
  rcases List.mem_map.mp hc with ⟨b, hb, rfl⟩
  rcases List.mem_map.mp hb with ⟨a, _, rfl⟩
  exact lowerC_wordChar_ok a

/-- Truncation to 50 characters preserves C# name well-formedness. -/
lemma csNameOkL_take (l : List Char) (h1 : l ≠ []) (h2 : l.headI.isAlpha = true)
    (h3 : ∀ c ∈ l, csNameChar c = true) : csNameOkL (l.take 50) = true := by
  match l, h1 with
  | c :: t, _ =>
    have ht : (c :: t).take 50 = c :: t.take 49 := rfl
    rw [csNameOkL, ht]
    simp only [Bool.and_eq_true, decide_eq_true_eq, List.all_eq_true]
    refine ⟨⟨⟨by simp, by simpa using h2⟩, ?_⟩, ?_⟩
    · have h49 : (t.take 49).length ≤ 49 := List.length_take_le 49 t
      simp only [List.length_cons]
      omega
    · intro x hx
      refine h3 x (List.take_subset 50 (c :: t) ?_)
      rw [ht]
      exact hx

/-- Truncation to 50 characters preserves Python name well-formedness. -/
lemma pyNameOkL_take (l : List Char) (h1 : l ≠ []) (h2 : l.headI.isAlpha = true)
    (h3 : ∀ c ∈ l, (c.isLower || c.isDigit || decide (c = '_')) = true) :
    pyNameOkL (l.take 50) = true := by
  match l, h1 with
  | c :: t, _ =>
    have ht : (c :: t).take 50 = c :: t.take 49 := rfl
    rw [pyNameOkL, ht]
    simp only [Bool.and_eq_true, decide_eq_true_eq, List.all_eq_true]
    refine ⟨⟨⟨by simp, by simpa using h2⟩, ?_⟩, ?_⟩
    · have h49 : (t.take 49).length ≤ 49 := List.length_take_le 49 t
      simp only [List.length_cons]
      omega
    · intro x hx
      refine h3 x (List.take_subset 50 (c :: t) ?_)
      rw [ht]
      exact hx

/-- Fix-up chain of the C# generator yields a well-formed name from any
sanitized input. -/
lemma cs_fix_ok (f : List Char) (hall : ∀ c ∈ f, csNameChar c = true) :
    csNameOkL ((csFallback (csFixStart f)).take 50) = true := by
  match f with
  | [] =>
    rw [csFixStart, if_neg (by simp)]
    rw [csFallback, if_pos rfl]
    decide
  | c :: t =>
    by_cases halpha : (c :: t).headI.isAlpha = true
    · have halpha' : c.isAlpha = true := halpha
      rw [csFixStart, if_neg (by simp [halpha'])]
      have hne : ¬ ((c :: t) = []) := by simp
      rw [csFallback, if_neg hne]
      exact csNameOkL_take (c :: t) (by simp) halpha hall
    · have hcond : (c :: t) ≠ [] ∧ ¬ ((c :: t).headI.isAlpha = true) := ⟨by simp, halpha⟩
      rw [csFixStart, if_pos hcond]
      have hne : ¬ (('A' :: 'p' :: 'p' :: c :: t) = []) := by simp
      rw [csFallback, if_neg hne]
      have hh : ('A' :: 'p' :: 'p' :: c :: t).headI.isAlpha = true := rfl
      refine csNameOkL_take ('A' :: 'p' :: 'p' :: c :: t) (by simp) hh ?_
      intro x hx
      simp only [List.mem_cons] at hx
      rcases hx with rfl | rfl | rfl | h
      · decide
      · decide
      · decide
      · exact hall x (List.mem_cons.mpr h)

/-- Fix-up chain of the Python generator yields a well-formed name from any
sanitized input. -/
lemma py_fix_ok (f : List Char)
    (hall : ∀ c ∈ f, (c.isLower || c.isDigit || decide (c = '_')) = true) :
    pyNameOkL ((pyFallback (pyFixStart f)).take 50) = true := by
  match f with
  | [] =>
    rw [pyFixStart, if_neg (by simp)]
    rw [pyFallback, if_pos rfl]
    decide
  | c :: t =>
    by_cases halpha : (c :: t).headI.isAlpha = true
    · have halpha' : c.isAlpha = true := halpha
      rw [pyFixStart, if_neg (by simp [halpha'])]
      have hne : ¬ ((c :: t) = []) := by simp
      rw [pyFallback, if_neg hne]
      exact pyNameOkL_take (c :: t) (by simp) halpha hall
    · have hcond : (c :: t) ≠ [] ∧ ¬ ((c :: t).headI.isAlpha = true) := ⟨by simp, halpha⟩
      rw [pyFixStart, if_pos hcond]
      have hne : ¬ (('a' :: 'p' :: 'p' :: '_' :: c :: t) = []) := by simp
      rw [pyFallback, if_neg hne]
      have hh : ('a' :: 'p' :: 'p' :: '_' :: c :: t).headI.isAlpha = true := rfl
      refine pyNameOkL_take ('a' :: 'p' :: 'p' :: '_' :: c :: t) (by simp) hh ?_
      intro x hx
      simp only [List.mem_cons] at hx
      rcases hx with rfl | rfl | rfl | rfl | h
      · decide
      · decide
      · decide
      · decide
      · exact hall x (List.mem_cons.mpr h)

/-- Claim C10: project-name derivation is total and well-formed: for every input
directory path, both generator variants of `_get_folder_name` return a
nonempty name that starts with a letter, has length at most 50, and draws
all characters from the generator's allowed charset. -/
theorem get_folder_name_wellformed (project_dir : String) :
    csNameOk (get_folder_name_cs project_dir) = true ∧
    pyNameOk (get_folder_name_py project_dir) = true := by
  constructor
  · exact cs_fix_ok ((folderLeafName project_dir).filter csNameChar)
      (fun c hc => (List.mem_filter.mp hc).2)
  · exact py_fix_ok (pySanitize (folderLeafName project_dir))
      (pySanitize_chars (folderLeafName project_dir))

/-! ## `src/tools/utilities/code_cleaner.py`: `CodeCleanerTool._clean_code`

Each `re.sub` pass of `_clean_code` / `_clean_csharp` is embedded as a fuel
scanner over the character list; the fuel is instantiated with the input
length, which bounds the number of scanner steps since every step consumes at
least one character.  The scanners implement the leftmost, non-overlapping
substitution semantics of the concrete pattern they embed, including the
`re.MULTILINE` treatment of `^` (tracked by the `atStart` flag against the
original text) and `$` (a greedy trailing `\s*$` stops before the last newline
of the whitespace run, or at the end of the string). -/

/-- Scanner for `re.sub(r'```[a-z]*\n', '\n', code)`: an opening code fence
with an optional lower-case language tag. -/
def subFenceLang : Nat → List Char → List Char
  | 0, l => l
  | _ + 1, [] => []
  | fuel + 1, c :: t =>
    if c = tickChar then
      match t with
      | c2 :: c3 :: rest =>
        if c2 = tickChar ∧ c3 = tickChar then
          let lang := rest.takeWhile Char.isLower
          match rest.drop lang.length with
          | '\n' :: rest2 => '\n' :: subFenceLang fuel rest2
          | _ => c :: subFenceLang fuel t
        else c :: subFenceLang fuel t
      | _ => c :: subFenceLang fuel t
    else c :: subFenceLang fuel t

/-- Scanner for `re.sub(r'```\n?', '', code)`: any remaining fence, swallowing
one following newline when present. -/
def subFenceClose : Nat → List Char → List Char
  | 0, l => l
  | _ + 1, [] => []
  | fuel + 1, c :: t =>
    if c = tickChar then
      match t with
      | c2 :: c3 :: rest =>
        if c2 = tickChar ∧ c3 = tickChar then
          match rest with
          | '\n' :: rest2 => subFenceClose fuel rest2
          | _ => subFenceClose fuel rest
        else c :: subFenceClose fuel t
      | _ => c :: subFenceClose fuel t
    else c :: subFenceClose fuel t

/-- Scanner for `re.sub(r'^##+\s+', '', code, flags=re.MULTILINE)`.  The
greedy `\s+` may cross newlines; the line-start flag for the continuation is
recomputed from the last consumed character. -/
def subMdHeader : Nat → Bool → List Char → List Char
  | 0, _, l => l
  | _ + 1, _, [] => []
  | fuel + 1, atStart, c :: t =>
    if atStart ∧ c = '#' then
      match t with
      | c2 :: rest =>
        if c2 = '#' then
          let hashes := rest.takeWhile (fun x => decide (x = '#'))
          let afterH := rest.drop hashes.length
          let ws := afterH.takeWhile pySpace
          if ws ≠ [] then
            subMdHeader fuel (decide (ws.getLast? = some '\n')) (afterH.drop ws.length)
          else c :: subMdHeader fuel false t
        else c :: subMdHeader fuel false t
      | [] => [c]
    else c :: subMdHeader fuel (decide (c = '\n')) t

/-- Trailing `\s*$` handling shared by the file-marker patterns (with
`re.MULTILINE`): the greedy run either reaches the end of the input (match
consumes it all) or must contain a newline, in which case the match stops just
before the LAST newline of the run; returns the continuation input, or `none`
when `$` cannot be reached. -/
def tailEndMatch (r : List Char) : Option (List Char) :=
  let ws := r.takeWhile pySpace
  let afterWs := r.drop ws.length
  if afterWs = [] then some []
  else if containsSub ['\n'] ws then
    let afterNl := (ws.reverse.takeWhile (fun c => decide (c ≠ '\n'))).reverse
    some ('\n' :: (afterNl ++ afterWs))
  else none

/-- Attempt of `^##\s*`-backquote?-`[\w\.]+`-backquote?-`\s*$` after the two
hashes were seen; input is the text after `##`. -/
def tryMdFileMarker (r0 : List Char) : Option (List Char) :=
  let r1 := r0.drop (r0.takeWhile pySpace).length
  let r2 := if r1.head? = some tickChar then r1.tail else r1
  let run := r2.takeWhile isWordDot
  if run = [] then none
  else
    let r3 := r2.drop run.length
    let r4 := if r3.head? = some tickChar then r3.tail else r3
    tailEndMatch r4

/-- Scanner for `re.sub(r'^##\s*`-backquote?-[\w\.]+-backquote?-\s*$', '',
code, flags=re.MULTILINE)`. -/
def subMdFileMarker : Nat → Bool → List Char → List Char
  | 0, _, l => l
  | _ + 1, _, [] => []
  | fuel + 1, atStart, c :: t =>
    if atStart ∧ c = '#' then
      match t with
      | c2 :: rest =>
        if c2 = '#' then
          match tryMdFileMarker rest with
          | some cont => subMdFileMarker fuel false cont
          | none => c :: subMdFileMarker fuel false t
        else c :: subMdFileMarker fuel false t
      | [] => [c]
    else c :: subMdFileMarker fuel (decide (c = '\n')) t

/-- Attempt of `^//\s*(Filename|File):\s*[\w\.]+\s*$` after the two slashes
were seen; input is the text after `//`. -/
def trySlashFileMarker (r0 : List Char) : Option (List Char) :=
  let r1 := r0.drop (r0.takeWhile pySpace).length
  let r2opt : Option (List Char) :=
    if isPrefixOfL "Filename".data r1 then some (r1.drop 8)
    else if isPrefixOfL "File".data r1 then some (r1.drop 4)
    else none
  match r2opt with
  | none => none
  | some r2 =>
    match r2 with
    | ':' :: r3 =>
      let r4 := r3.drop (r3.takeWhile pySpace).length
      let run := r4.takeWhile isWordDot
      if run = [] then none
      else tailEndMatch (r4.drop run.length)
    | _ => none

/-- Scanner for `re.sub(r'^//\s*(Filename|File):\s*[\w\.]+\s*$', '', code,
flags=re.MULTILINE)`. -/
def subSlashFileMarker : Nat → Bool → List Char → List Char
  | 0, _, l => l
  | _ + 1, _, [] => []
  | fuel + 1, atStart, c :: t =>
    if atStart ∧ c = '/' then
      match t with
      | c2 :: rest =>
        if c2 = '/' then
          match trySlashFileMarker rest with
          | some cont => subSlashFileMarker fuel false cont
          | none => c :: subSlashFileMarker fuel false t
        else c :: subSlashFileMarker fuel false t
      | [] => [c]
    else c :: subSlashFileMarker fuel (decide (c = '\n')) t

/-- Introductory-phrase pattern of `re.sub(r"^Here's.*?\n+", '', ...)` (the
apostrophe is written by code point). -/
def heresPat : List Char := ['H', 'e', 'r', 'e', aposChar, 's']

/-- Introductory-phrase pattern of `re.sub(r"^Below is.*?\n+", '', ...)`. -/
def belowIsPat : List Char := "Below is".data

/-- Attempt of `^PAT.*?\n+` (case-insensitive) at a line start: the lazy `.*?`
cannot cross a newline, so the match runs to the first newline and the greedy
`\n+` then swallows the maximal newline run. -/
def tryIntroLine (pat r : List Char) : Option (List Char) :=
  if isPrefixOfCiL pat r then
    let rest := r.drop pat.length
    let line := rest.takeWhile (fun c => decide (c ≠ '\n'))
    match rest.drop line.length with
    | '\n' :: more =>
      let nls := more.takeWhile (fun c => decide (c = '\n'))
      some (more.drop nls.length)
    | _ => none
  else none

/-- Scanner for `re.sub(r"^PAT.*?\n+", '', code, flags=re.IGNORECASE |
re.MULTILINE)` for a newline-free pattern `PAT`. -/
def subIntroLine (pat : List Char) : Nat → Bool → List Char → List Char
  | 0, _, l => l
  | _ + 1, _, [] => []
  | fuel + 1, atStart, c :: t =>
    if atStart then
      match tryIntroLine pat (c :: t) with
      | some cont => subIntroLine pat fuel true cont
      | none => c :: subIntroLine pat fuel (decide (c = '\n')) t
    else c :: subIntroLine pat fuel (decide (c = '\n')) t

/-- Number of newline characters in a list. -/
def countNl (l : List Char) : Nat := (l.filter (fun c => decide (c = '\n'))).length

/-- Scanner for `re.sub(r'\n\s*\n\s*\n', '\n\n', code)`: a whitespace run
starting at a newline and containing at least three newlines is matched from
its first to its last newline and replaced by two newlines. -/
def subCollapseBlank : Nat → List Char → List Char
  | 0, l => l
  | _ + 1, [] => []
  | fuel + 1, c :: t =>
    if c = '\n' then
      let run := (c :: t).takeWhile pySpace
      if 3 ≤ countNl run then
        let afterNl := (run.reverse.takeWhile (fun x => decide (x ≠ '\n'))).reverse
        '\n' :: '\n' :: subCollapseBlank fuel (afterNl ++ (c :: t).drop run.length)
      else c :: subCollapseBlank fuel t
    else c :: subCollapseBlank fuel t

/-- Mojibake prefixes filtered by the line loop of `_clean_code` (the source
file holds the UTF-8 bytes of three emoji read back as latin-1 text; the code
points below are exactly the characters in the Python string literals). -/
def emojiPrefix1 : List Char := [Char.ofNat 0xE2, Char.ofNat 0x153, Char.ofNat 0x2026]

/-- Second mojibake prefix of the line filter. -/
def emojiPrefix2 : List Char := [Char.ofNat 0xF0, Char.ofNat 0x178, Char.ofNat 0xA7, Char.ofNat 0xAA]

/-- Third mojibake prefix of the line filter. -/
def emojiPrefix3 : List Char := [Char.ofNat 0xF0, Char.ofNat 0x178, Char.ofNat 0x201C]

/-- Line predicate of the documentation-filter loop in `_clean_code`:
`using`/`namespace` lines are always kept; markdown headers, list items,
mojibake-emoji lines and first-person narration are dropped. -/
def keepLine (line : List Char) : Bool :=
  let stripped := stripL line
  if isPrefixOfL "using ".data stripped || isPrefixOfL "namespace ".data stripped then true
  else if isPrefixOfL "# ".data stripped || isPrefixOfL "## ".data stripped
      || isPrefixOfL "### ".data stripped then false
  else if isPrefixOfL "- ".data stripped || isPrefixOfL "* ".data stripped then false
  else if isPrefixOfL emojiPrefix1 stripped || isPrefixOfL emojiPrefix2 stripped
      || isPrefixOfL emojiPrefix3 stripped then false
  else if isPrefixOfL "As a ".data stripped || isPrefixOfL "I will".data stripped then false
  else true

/-- Embeds the split-filter-join loop of `_clean_code`. -/
def lineFilter (code : List Char) : List Char :=
  joinSepL '\n' ((splitSepL '\n' code).filter keepLine)

/-- First-seen-order deduplication (Python `list(dict.fromkeys(...))`). -/
def dedupFirstAux (seen : List (List Char)) : List (List Char) → List (List Char)
  | [] => []
  | x :: xs =>
    if seen.contains x then dedupFirstAux seen xs
    else x :: dedupFirstAux (x :: seen) xs

/-- Embeds `CodeCleanerTool._ensure_using_statements`, including its
`'using ' in code.split('\n')[0:5]` check, which in Python is a LIST
MEMBERSHIP test (a line must literally equal `using `), not a substring
search. -/
def ensure_using_statements (code : List Char) : List Char :=
  if code = [] then code
  else
    let hasUsings := ((splitSepL '\n' code).take 5).contains "using ".data
    if hasUsings then code
    else
      let needed : List (List Char) :=
        (if containsSub "Console.".data code then ["using System;".data] else []) ++
        (if containsSub "IEnumerable".data code || containsSub ".ToList()".data code
            || containsSub ".Select(".data code then ["using System.Linq;".data] else []) ++
        (if containsSub "List<".data code || containsSub "Dictionary<".data code then
          ["using System.Collections.Generic;".data] else []) ++
        (if containsSub "ArgumentNullException".data code
            || containsSub "ArgumentException".data code then ["using System;".data] else []) ++
        (if containsSub "Regex.".data code || containsSub "Regex.IsMatch".data code then
          ["using System.Text.RegularExpressions;".data] else []) ++
        (if containsSub "Task<".data code || containsSub "async ".data code then
          ["using System.Threading.Tasks;".data] else []) ++
        (if containsSub "[Test]".data code || containsSub "[TestFixture]".data code
            || containsSub "[TestCase]".data code then ["using NUnit.Framework;".data] else []) ++
        (if containsSub "Mock<".data code
            || (containsSub ".Object".data code && containsSub "Moq".data code) then
          ["using Moq;".data] else [])
      if needed ≠ [] then
        let uniqueUsings := dedupFirstAux [] needed
        let usingBlock := joinSepL '\n' uniqueUsings ++ ['\n']
        usingBlock ++ '\n' :: code
      else code

/-- Strip backquote characters from both ends (Python `line.strip(tick)`). -/
def stripTicks (l : List Char) : List Char :=
  ((l.dropWhile (fun c => decide (c = tickChar))).reverse.dropWhile
    (fun c => decide (c = tickChar))).reverse

/-- Embeds `CodeCleanerTool._clean_csharp`. -/
def clean_csharp (code : List Char) : List Char :=
  let code := subFenceLang code.length code
  let code := subFenceClose code.length code
  let code := subMdHeader code.length true code
  let code := subMdFileMarker code.length true code
  let code := subSlashFileMarker code.length true code
  let code := subIntroLine heresPat code.length true code
  let code := subIntroLine belowIsPat code.length true code
  let code := subCollapseBlank code.length code
  let code := stripL code
  ensure_using_statements code

/-- Embeds `CodeCleanerTool._clean_python`: per-line backquote stripping.  The
condition tests the whitespace-stripped line, while the transformation strips
backquotes from the ORIGINAL line, then whitespace. -/
def clean_python (code : List Char) : List Char :=
  joinSepL '\n' ((splitSepL '\n' code).map (fun line =>
    if isPrefixOfL [tickChar] (stripL line) ∧ isSuffixOfL [tickChar] (stripL line) then
      stripL (stripTicks line)
    else line))

/-- Embeds `CodeCleanerTool._clean_code` on character lists. -/
def clean_code_l (code : List Char) (language : String) : List Char :=
  let code := subFenceLang code.length code
  let code := subFenceClose code.length code
  let code := subMdHeader code.length true code
  let code := subMdFileMarker code.length true code
  let code := subSlashFileMarker code.length true code
  let code := subIntroLine heresPat code.length true code
  let code := subIntroLine belowIsPat code.length true code
  let code := lineFilter code
  let code :=
    if language = "csharp" then clean_csharp code
    else if language = "python" then clean_python code
    else code
  let code := subCollapseBlank code.length code
  stripL code

/-- Embeds `CodeCleanerTool._clean_code`. -/
def clean_code (code : String) (language : String) : String :=
  ⟨clean_code_l code.data language⟩

/-- Claim C2 (code bug): extraction is NOT idempotent, the claimed property
fails on the code.  On the already
clean input `Console.WriteLine(1);` with the `csharp` hint, the first run
prepends `using System;`, and the second run prepends it AGAIN, because the
already-has-usings check of `_ensure_using_statements` tests list membership
of the literal string `using ` among the first five lines (always false here)
instead of searching the lines for a `using` declaration. -/
theorem clean_code_not_idempotent :
    clean_code "Console.WriteLine(1);" "csharp"
        = "using System;\n\nConsole.WriteLine(1);" ∧
    clean_code (clean_code "Console.WriteLine(1);" "csharp") "csharp"
        = "using System;\n\nusing System;\n\nConsole.WriteLine(1);" ∧
    clean_code (clean_code "Console.WriteLine(1);" "csharp") "csharp"
        ≠ clean_code "Console.WriteLine(1);" "csharp" := by
  refine ⟨by decide, by decide, by decide⟩

/-! ## `src/tools/utilities/code_cleaner.py`: `CodeSplitterTool`

The splitter's Python dicts are embedded as association lists with the
insertion-order, replace-on-collision semantics of dict assignment
(`dictInsert`).  Marker scanning embeds the `re.finditer` calls with match
positions recorded against the original text. -/

/-- Opening and closing brace characters (written by code point to keep them
out of the source text). -/
def lbrace : Char := Char.ofNat 123

/-- Closing brace character. -/
def rbrace : Char := Char.ofNat 125

/-- One `re.finditer` match of a file-marker pattern: the filename group and
the match extent in the original text. -/
structure MarkerMatch where
  name : List Char
  mstart : Nat
  mend : Nat
deriving DecidableEq, Repr

/-- Attempt of `//\s*File:\s*([\w\.]+\.cs)\s*\n` (IGNORECASE) at the current
position: the filename group is the maximal word/dot run, which must end in
`.cs` case-insensitively with at least one `[\w\.]` character before that
suffix (`[\w\.]+` then `\.cs`, so group length at least 4), and the greedy
`\s*\n` tail ends after the LAST newline of the following whitespace run. -/
def tryCsMarkerAt (r : List Char) : Option (List Char × Nat) :=
  match r with
  | '/' :: '/' :: r0 =>
    let ws1 := r0.takeWhile pySpace
    let r1 := r0.drop ws1.length
    if isPrefixOfCiL "File".data r1 then
      match r1.drop 4 with
      | ':' :: r3 =>
        let ws2 := r3.takeWhile pySpace
        let r4 := r3.drop ws2.length
        let run := r4.takeWhile isWordDot
        if 4 ≤ run.length ∧ isSuffixOfL ".cs".data (run.map lowerC) then
          let ws3 := (r4.drop run.length).takeWhile pySpace
          if containsSub ['\n'] ws3 then
            let afterNl := (ws3.reverse.takeWhile (fun c => decide (c ≠ '\n'))).reverse
            some (run, 2 + ws1.length + 4 + 1 + ws2.length + run.length
              + (ws3.length - afterNl.length))
          else none
        else none
      | _ => none
    else none
  | _ => none

/-- Attempt of `#\s*File:\s*([\w\.]+\.py)\s*\n` (IGNORECASE) at the current
position; as for the C# pattern, the filename group needs at least one
`[\w\.]` character before the `.py` suffix (group length at least 4). -/
def tryPyMarkerAt (r : List Char) : Option (List Char × Nat) :=
  match r with
  | '#' :: r0 =>
    let ws1 := r0.takeWhile pySpace
    let r1 := r0.drop ws1.length
    if isPrefixOfCiL "File".data r1 then
      match r1.drop 4 with
      | ':' :: r3 =>
        let ws2 := r3.takeWhile pySpace
        let r4 := r3.drop ws2.length
        let run := r4.takeWhile isWordDot
        if 4 ≤ run.length ∧ isSuffixOfL ".py".data (run.map lowerC) then
          let ws3 := (r4.drop run.length).takeWhile pySpace
          if containsSub ['\n'] ws3 then
            let afterNl := (ws3.reverse.takeWhile (fun c => decide (c ≠ '\n'))).reverse
            some (run, 1 + ws1.length + 4 + 1 + ws2.length + run.length
              + (ws3.length - afterNl.length))
          else none
        else none
      | _ => none
    else none
  | _ => none

/-- Leftmost, non-overlapping `re.finditer` driver for a marker attempt
function. -/
def findMarkers (tryAt : List Char → Option (List Char × Nat)) :
    Nat → Nat → List Char → List MarkerMatch
  | 0, _, _ => []
  | _ + 1, _, [] => []
  | fuel + 1, pos, l =>
    match tryAt l with
    | some (nm, consumed) =>
      ⟨nm, pos, pos + consumed⟩ :: findMarkers tryAt fuel (pos + consumed) (l.drop consumed)
    | none =>
      match l with
      | [] => []
      | _ :: t => findMarkers tryAt fuel (pos + 1) t

/-- All C# file-marker matches of `_split_csharp`, in order. -/
def findCsMarkers (l : List Char) : List MarkerMatch := findMarkers tryCsMarkerAt l.length 0 l

/-- All Python file-marker matches of `_split_python`, in order. -/
def findPyMarkers (l : List Char) : List MarkerMatch := findMarkers tryPyMarkerAt l.length 0 l

/-- Python dict assignment `d[k] = v` on an association list: replace in
place, or append when the key is new. -/
def dictInsert (d : List (String × String)) (k v : String) : List (String × String) :=
  if d.any (fun p => decide (p.1 = k)) then
    d.map (fun p => if p.1 = k then (k, v) else p)
  else d ++ [(k, v)]

/-- Sequence of dict assignments (also Python `d.update(entries)`). -/
def dictInsertAll (d : List (String × String)) :
    List (String × String) → List (String × String)
  | [] => d
  | e :: rest => dictInsertAll (dictInsert d e.1 e.2) rest

/-- Python slice `l[a:b]` for `a ≤ b`. -/
def sliceL (l : List Char) (a b : Nat) : List Char := (l.drop a).take (b - a)

/-- Marker-branch entries: each filename maps to the stripped text from the
end of its marker match to the start of the next one (or the end of the
blob). -/
def markerEntries (l : List Char) : List MarkerMatch → List (String × String)
  | [] => []
  | m :: rest =>
    let endPos := match rest with | m2 :: _ => m2.mstart | [] => l.length
    ((⟨m.name⟩ : String), (⟨stripL (sliceL l m.mend endPos)⟩ : String)) :: markerEntries l rest

/-- Embeds the `is_test_code` heuristic of `_split_csharp`. -/
def cs_is_test_code (code : List Char) : Bool :=
  containsSub "[TestFixture]".data code || containsSub "[Test]".data code
    || containsSub "[TestCase]".data code || containsSub "NUnit".data code
    || containsSub "Assert.".data code || containsSub "Tests".data code

/-- One match of the class pattern `(?:public\s+)?(?:static\s+)?class\s+(\w+)`:
the class name and the match start. -/
structure ClassMatch where
  name : List Char
  cstart : Nat
deriving DecidableEq, Repr

/-- Attempt of the class pattern at the current position; returns the name
group and the match length. -/
def tryClassAt (r : List Char) : Option (List Char × Nat) :=
  let step1 : Nat :=
    if isPrefixOfL "public".data r then
      let ws := (r.drop 6).takeWhile pySpace
      if ws ≠ [] then 6 + ws.length else 0
    else 0
  let r1 := r.drop step1
  let step2 : Nat :=
    if isPrefixOfL "static".data r1 then
      let ws := (r1.drop 6).takeWhile pySpace
      if ws ≠ [] then 6 + ws.length else 0
    else 0
  let r2 := r1.drop step2
  if isPrefixOfL "class".data r2 then
    let r3 := r2.drop 5
    let ws := r3.takeWhile pySpace
    if ws ≠ [] then
      let run := (r3.drop ws.length).takeWhile isWordChar
      if run ≠ [] then some (run, step1 + step2 + 5 + ws.length + run.length)
      else none
    else none
  else none

/-- The `re.finditer` driver for class declarations. -/
def findClassMatches : Nat → Nat → List Char → List ClassMatch
  | 0, _, _ => []
  | _ + 1, _, [] => []
  | fuel + 1, pos, l =>
    match tryClassAt l with
    | some (nm, len) => ⟨nm, pos⟩ :: findClassMatches fuel (pos + len) (l.drop len)
    | none =>
      match l with
      | [] => []
      | _ :: t => findClassMatches fuel (pos + 1) t

/-- Embeds the brace-depth scan of `_split_csharp`: counter updates per
character, `started` set at the first opening brace, stop when the depth
returns to zero.  Returns the exclusive end offset, or `none` when the scan
never closes (the source then falls back to the end of the blob). -/
def braceScan : List Char → Nat → Int → Bool → Option Nat
  | [], _, _, _ => none
  | ch :: t, j, count, started =>
    let count2 := if ch = lbrace then count + 1 else if ch = rbrace then count - 1 else count
    let started2 := started || decide (ch = lbrace)
    if started2 = true ∧ count2 = 0 then some (j + 1)
    else braceScan t (j + 1) count2 started2

/-- Class-branch entries of `_split_csharp`: per class declaration, its
brace-balanced span (stripped) keyed by `ClassName.cs`. -/
def classEntries (code : List Char) (isTest : Bool) : List ClassMatch → List (String × String)
  | [] => []
  | m :: rest =>
    let endPos :=
      match braceScan (code.drop m.cstart) 0 0 false with
      | some off => m.cstart + off
      | none => code.length
    let content := stripL (sliceL code m.cstart endPos)
    let filename :=
      if isTest = true ∨ isSuffixOfL "Tests".data m.name ∨ isSuffixOfL "Test".data m.name then
        ((⟨m.name⟩ : String) ++ ".cs")
      else if m.name = "Program".data then "Program.cs"
      else ((⟨m.name⟩ : String) ++ ".cs")
    (filename, (⟨content⟩ : String)) :: classEntries code isTest rest

/-- Group extraction for `re.search(r'public\s+class\s+(\w+Tests)', code)`:
within the maximal word run, greedy backtracking picks the longest prefix
ending in `Tests` with at least one preceding word character. -/
def findTestsGroupAux (run : List Char) : Nat → Option (List Char)
  | 0 => none
  | k + 1 =>
    if isPrefixOfL "Tests".data (run.drop (k + 1)) then some (run.take (k + 1 + 5))
    else findTestsGroupAux run k

/-- Wrapper of `findTestsGroupAux` starting at the last feasible split. -/
def findTestsGroup (run : List Char) : Option (List Char) :=
  if 6 ≤ run.length then findTestsGroupAux run (run.length - 5) else none

/-- Attempt of `public\s+class\s+(\w+Tests)` at the current position. -/
def tryTestClassAt (r : List Char) : Option (List Char) :=
  if isPrefixOfL "public".data r then
    let ws1 := (r.drop 6).takeWhile pySpace
    if ws1 ≠ [] then
      let r2 := (r.drop 6).drop ws1.length
      if isPrefixOfL "class".data r2 then
        let ws2 := (r2.drop 5).takeWhile pySpace
        if ws2 ≠ [] then
          findTestsGroup (((r2.drop 5).drop ws2.length).takeWhile isWordChar)
        else none
      else none
    else none
  else none

/-- The `re.search` driver for the test-class name. -/
def searchTestClass : Nat → List Char → Option (List Char)
  | 0, _ => none
  | _ + 1, [] => none
  | fuel + 1, l =>
    match tryTestClassAt l with
    | some nm => some nm
    | none =>
      match l with
      | [] => none
      | _ :: t => searchTestClass fuel t

/-- Embeds `CodeSplitterTool._split_csharp`. -/
def split_csharp (code : String) : List (String × String) :=
  let l := code.data
  let isTest := cs_is_test_code l
  let ms := findCsMarkers l
  if ms ≠ [] then dictInsertAll [] (markerEntries l ms)
  else
    let cms := findClassMatches l.length 0 l
    if cms ≠ [] then dictInsertAll [] (classEntries l isTest cms)
    else
      if isTest = true then
        match searchTestClass l.length l with
        | some nm => [(((⟨nm⟩ : String) ++ ".cs"), code)]
        | none => [("UnitTests.cs", code)]
      else [("Program.cs", code)]

/-- Embeds `CodeSplitterTool._split_python`. -/
def split_python (code : String) : List (String × String) :=
  let l := code.data
  let ms := findPyMarkers l
  if ms ≠ [] then dictInsertAll [] (markerEntries l ms)
  else [("main.py", code)]

/-- Embeds `CodeSplitterTool._get_extension`. -/
def get_extension (language : String) : String :=
  if language = "csharp" then ".cs"
  else if language = "python" then ".py"
  else if language = "javascript" then ".js"
  else if language = "java" then ".java"
  else if language = "typescript" then ".ts"
  else ".txt"

/-- Embeds `CodeSplitterTool._split_code`. -/
def split_code (code : String) (language : String) : List (String × String) :=
  if language = "csharp" then split_csharp code
  else if language = "python" then split_python code
  else [("main" ++ get_extension language, code)]

/-- Dict assignment with a fresh key appends. -/
lemma dictInsert_new (acc : List (String × String)) (k v : String)
    (h : ∀ p ∈ acc, p.1 ≠ k) : dictInsert acc k v = acc ++ [(k, v)] := by
  have hany : acc.any (fun p => decide (p.1 = k)) = false := by
    rw [List.any_eq_false]
    intro p hp
    simpa using h p hp
  simp [dictInsert, hany]

/-- Folding dict assignments over entries with pairwise-distinct keys, all
fresh for the accumulator, is plain concatenation. -/
lemma dictInsertAll_nodup :
    ∀ (entries acc : List (String × String)),
      (entries.map Prod.fst).Nodup →
      (∀ k ∈ entries.map Prod.fst, ∀ p ∈ acc, p.1 ≠ k) →
      dictInsertAll acc entries = acc ++ entries := by
  intro entries
  induction entries with
  | nil => intro acc _ _; simp [dictInsertAll]
  | cons e rest ih =>
    intro acc hnd hdis
    obtain ⟨k, v⟩ := e
    have hk : ∀ p ∈ acc, p.1 ≠ k := hdis k (by simp)
    have hnd2 : (k :: rest.map Prod.fst).Nodup := by simpa using hnd
    have hnd3 := List.nodup_cons.mp hnd2
    rw [dictInsertAll, dictInsert_new acc k v hk,
      ih (acc ++ [(k, v)]) hnd3.2 ?_]
    · simp
    · intro k2 hk2 p hp
      rcases List.mem_append.mp hp with hpa | hpb
      · exact hdis k2 (by simp [hk2]) p hpa
      · have hpk : p = (k, v) := by simpa using hpb
        subst hpk
        intro hcontra
        rw [← hcontra] at hk2
        exact hnd3.1 hk2

/-- Keys of the marker-branch entries are exactly the declared filenames. -/
lemma markerEntries_map_fst (l : List Char) :
    ∀ ms : List MarkerMatch,
      (markerEntries l ms).map Prod.fst = ms.map (fun m => (⟨m.name⟩ : String)) := by
  intro ms
  induction ms with
  | nil => rfl
  | cons m rest ih => simp [markerEntries, ih]

/-- The marker branch produces one entry per marker. -/
lemma markerEntries_length (l : List Char) (ms : List MarkerMatch) :
    (markerEntries l ms).length = ms.length := by
  rw [← List.length_map (markerEntries l ms) Prod.fst, markerEntries_map_fst, List.length_map]

/-- Claim C7: marker splitting is exact: when a code blob contains file markers with
pairwise-distinct declared filenames, both `_split_csharp` and `_split_python`
return exactly one entry per marker, keyed by the declared names in order,
each entry holding the stripped text from the end of its marker match to the
start of the next marker (or the end of the blob) — the content computed by
`markerEntries`. -/
theorem split_on_markers_exact (code : String) :
    (findCsMarkers code.data ≠ [] →
      ((findCsMarkers code.data).map (fun m => (⟨m.name⟩ : String))).Nodup →
      split_csharp code = markerEntries code.data (findCsMarkers code.data) ∧
      (split_csharp code).length = (findCsMarkers code.data).length) ∧
    (findPyMarkers code.data ≠ [] →
      ((findPyMarkers code.data).map (fun m => (⟨m.name⟩ : String))).Nodup →
      split_python code = markerEntries code.data (findPyMarkers code.data) ∧
      (split_python code).length = (findPyMarkers code.data).length) := by
  constructor
  · intro hne hnd
    have hkeys : ((markerEntries code.data (findCsMarkers code.data)).map Prod.fst).Nodup := by
      rw [markerEntries_map_fst]
      exact hnd
    have hsplit : split_csharp code
        = dictInsertAll [] (markerEntries code.data (findCsMarkers code.data)) := by
      rw [split_csharp]
      simp only [hne, ne_eq, not_false_iff, if_true]
    rw [hsplit, dictInsertAll_nodup _ [] hkeys (by intro k _ p hp; cases hp)]
    exact ⟨by simp, by simp [markerEntries_length]⟩
  · intro hne hnd
    have hkeys : ((markerEntries code.data (findPyMarkers code.data)).map Prod.fst).Nodup := by
      rw [markerEntries_map_fst]
      exact hnd
    have hsplit : split_python code
        = dictInsertAll [] (markerEntries code.data (findPyMarkers code.data)) := by
      rw [split_python]
      simp only [hne, ne_eq, not_false_iff, if_true]
    rw [hsplit, dictInsertAll_nodup _ [] hkeys (by intro k _ p hp; cases hp)]
    exact ⟨by simp, by simp [markerEntries_length]⟩

/-- Claim C7 witness for `split_on_markers_exact` on concrete two-marker blobs. -/
theorem split_on_markers_exact_witness :
    split_csharp "// File: A.cs\nint one;\n// File: B.cs\nint two;"
      = [("A.cs", "int one;"), ("B.cs", "int two;")] ∧
    split_python "# File: a.py\nx = 1\n# File: b.py\ny = 2"
      = [("a.py", "x = 1"), ("b.py", "y = 2")] := by
  have h1 := (split_on_markers_exact "// File: A.cs\nint one;\n// File: B.cs\nint two;").1
    (by decide) (by decide)
  have h2 := (split_on_markers_exact "# File: a.py\nx = 1\n# File: b.py\ny = 2").2
    (by decide) (by decide)
  exact ⟨h1.1.trans (by decide), h2.1.trans (by decide)⟩

/-! ## `src/tools/generators/csharp_generator.py`: `execute`

The generator writes files to disk; the embedding returns, next to the
`ToolResult`, the ordered list of (path, content) writes it performs.
`os.makedirs` has no observable effect in this model and the `uuid.uuid4`
calls of `_write_solution` are an oracle `uuid4` indexed by call order.  The
`try/except` of `execute` can only fire on filesystem faults, which the pure
model does not produce. -/

/-- Embeds the `ProjectReference` path interpolated by `_write_test_csproj`:
`..\NAME\NAME.csproj` for the resolved project name. -/
def test_csproj_project_reference (project_name : String) : String :=
  "..\\" ++ project_name ++ "\\" ++ project_name ++ ".csproj"

/-- Text of the test `.csproj` before the `ProjectReference` path. -/
def test_csproj_before_ref (target_framework : String) : String :=
  "<Project Sdk=\"Microsoft.NET.Sdk\">\n\n  <PropertyGroup>\n    <TargetFramework>"
    ++ target_framework
    ++ "</TargetFramework>\n    <ImplicitUsings>disable</ImplicitUsings>\n    <Nullable>enable</Nullable>\n    <IsPackable>false</IsPackable>\n  </PropertyGroup>\n\n  <ItemGroup>\n    <PackageReference Include=\"Microsoft.NET.Test.Sdk\" Version=\"17.8.0\" />\n    <PackageReference Include=\"NUnit\" Version=\"3.14.0\" />\n    <PackageReference Include=\"NUnit3TestAdapter\" Version=\"4.5.0\" />\n    <PackageReference Include=\"Moq\" Version=\"4.20.70\" />\n    <PackageReference Include=\"coverlet.collector\" Version=\"6.0.0\">\n      <IncludeAssets>runtime; build; native; contentfiles; analyzers; buildtransitive</IncludeAssets>\n      <PrivateAssets>all</PrivateAssets>\n    </PackageReference>\n  </ItemGroup>\n\n  <ItemGroup>\n    <ProjectReference Include=\""

/-- Text of the test `.csproj` after the `ProjectReference` path. -/
def test_csproj_after_ref : String :=
  "\" />\n  </ItemGroup>\n\n</Project>\n"

/-- Embeds the content written by `_write_test_csproj`. -/
def write_test_csproj_content (project_name target_framework : String) : String :=
  test_csproj_before_ref target_framework
    ++ test_csproj_project_reference project_name
    ++ test_csproj_after_ref

/-- Embeds the content written by `_write_csproj` (the `project_name`
parameter is accepted but unused, as in the source). -/
def write_csproj_content (project_name target_framework : String) : String :=
  "<Project Sdk=\"Microsoft.NET.Sdk\">\n\n  <PropertyGroup>\n    <OutputType>Exe</OutputType>\n    <TargetFramework>"
    ++ target_framework
    ++ "</TargetFramework>\n    <ImplicitUsings>disable</ImplicitUsings>\n    <Nullable>enable</Nullable>\n    <GenerateDocumentationFile>true</GenerateDocumentationFile>\n  </PropertyGroup>\n\n</Project>\n"

/-- Embeds the content written by `_write_solution`, with the two upper-cased
`uuid.uuid4` strings supplied by the caller. -/
def write_solution_content (project_name main_guid test_guid : String) : String :=
  "Microsoft Visual Studio Solution File, Format Version 12.00\n# Visual Studio Version 17\nVisualStudioVersion = 17.0.31903.59\nMinimumVisualStudioVersion = 10.0.40219.1\nProject(\"\x7bFAE04EC0-301F-11D3-BF4B-00C04F79EFBC\x7d\") = \""
    ++ project_name ++ "\", \"" ++ project_name ++ "\\" ++ project_name
    ++ ".csproj\", \"\x7b" ++ main_guid
    ++ "\x7d\"\nEndProject\nProject(\"\x7bFAE04EC0-301F-11D3-BF4B-00C04F79EFBC\x7d\") = \""
    ++ project_name ++ ".Tests\", \"" ++ project_name ++ ".Tests\\" ++ project_name
    ++ ".Tests.csproj\", \"\x7b" ++ test_guid
    ++ "\x7d\"\nEndProject\nGlobal\n\tGlobalSection(SolutionConfigurationPlatforms) = preSolution\n\t\tDebug|Any CPU = Debug|Any CPU\n\t\tRelease|Any CPU = Release|Any CPU\n\tEndGlobalSection\n\tGlobalSection(ProjectConfigurationPlatforms) = postSolution\n\t\t\x7b"
    ++ main_guid ++ "\x7d.Debug|Any CPU.ActiveCfg = Debug|Any CPU\n\t\t\x7b"
    ++ main_guid ++ "\x7d.Debug|Any CPU.Build.0 = Debug|Any CPU\n\t\t\x7b"
    ++ main_guid ++ "\x7d.Release|Any CPU.ActiveCfg = Release|Any CPU\n\t\t\x7b"
    ++ main_guid ++ "\x7d.Release|Any CPU.Build.0 = Release|Any CPU\n\t\t\x7b"
    ++ test_guid ++ "\x7d.Debug|Any CPU.ActiveCfg = Debug|Any CPU\n\t\t\x7b"
    ++ test_guid ++ "\x7d.Debug|Any CPU.Build.0 = Debug|Any CPU\n\t\t\x7b"
    ++ test_guid ++ "\x7d.Release|Any CPU.ActiveCfg = Release|Any CPU\n\t\t\x7b"
    ++ test_guid ++ "\x7d.Release|Any CPU.Build.0 = Release|Any CPU\n\tEndGlobalSection\n\tGlobalSection(SolutionProperties) = preSolution\n\t\tHideSolutionNode = FALSE\n\tEndGlobalSection\nEndGlobal\n"

/-- Embeds the content written by `_write_gitignore`. -/
def gitignore_content : String :=
  "## Visual Studio / .NET\n.vs/\n*.user\n*.suo\n*.userosscache\n*.userprefs\nbin/\nobj/\n*.dll\n*.exe\n*.pdb\n*.mdb\n\n# NuGet\n*.nupkg\npackages/\n\n# Test results\nTestResults/\n*.trx\n\n# Build results\n[Dd]ebug/\n[Rr]elease/\nx64/\nx86/\nbld/\n\n# IDE\n.idea/\n*.swp\n*.swo\n"

/-- Embeds the content written by `_write_readme`. -/
def readme_content (project_name : String) : String :=
  "# " ++ project_name ++ "\n\nGenerated by AI Agent Software Team\n\n## Build and Run\n\n### Using Visual Studio\n1. Open `"
    ++ project_name
    ++ ".sln` in Visual Studio\n2. Build the solution (Ctrl+Shift+B)\n3. Run with F5 or Ctrl+F5\n\n### Using .NET CLI\n```bash\n# Build\ndotnet build "
    ++ project_name ++ ".sln\n\n# Run\ndotnet run --project "
    ++ project_name ++ "/" ++ project_name ++ ".csproj\n\n# Run Tests\ndotnet test "
    ++ project_name ++ ".sln\n```\n\n## Project Structure\n\n```\n"
    ++ project_name ++ "/\n├── " ++ project_name ++ ".sln\n├── "
    ++ project_name ++ "/\n│   ├── " ++ project_name ++ ".csproj\n│   └── *.cs\n└── "
    ++ project_name ++ ".Tests/\n    ├── " ++ project_name
    ++ ".Tests.csproj\n    └── *.cs\n```\n"

/-- Payload of the generator's success result. -/
structure GenData where
  project_name : String
  main_dir : String
  test_dir : String
deriving DecidableEq, Repr

/-- Left-to-right worker of the test-file routing loop of `execute`. -/
def route_split_aux (files test_files : List (String × String)) :
    List (String × String) → List (String × String) × List (String × String)
  | [] => (files, test_files)
  | p :: rest =>
    if containsSubS p.1 "Test" || containsSubS p.1 "Tests" then
      route_split_aux files (dictInsert test_files p.1 p.2) rest
    else
      route_split_aux (dictInsert files p.1 p.2) test_files rest

/-- Embeds the test-file routing loop of `execute` over the split result of
the main code: filenames containing `Test` (or `Tests`) go to the test dict,
the rest to the main dict, in iteration order. -/
def route_split (entries : List (String × String)) :
    List (String × String) × List (String × String) :=
  route_split_aux [] [] entries

/-- Embeds `CSharpProjectGeneratorTool.execute`; returns the `ToolResult` and
the ordered list of file writes performed. -/
def csharp_generator_execute (uuid4 : Nat → String) (project_dir : String)
    (code test_code : Option String) (project_name : Option String)
    (target_framework : String) : ToolResult GenData × List (String × String) :=
  let pn :=
    match project_name with
    | none => get_folder_name_cs project_dir
    | some p => p
  let code1 : Option String :=
    match code with
    | none => none
    | some c => some (clean_code c "csharp")
  let test_code1 : Option String :=
    match test_code with
    | none => none
    | some tc => if tc ≠ "" then some (clean_code tc "csharp") else some tc
  let routed : List (String × String) × List (String × String) :=
    match code1 with
    | some c => if c ≠ "" then route_split (split_csharp c) else ([], [])
    | none => ([], [])
  let files := routed.1
  let test_files :=
    match test_code1 with
    | some tc => if tc ≠ "" then dictInsertAll routed.2 (split_csharp tc) else routed.2
    | none => routed.2
  let main_dir := pyJoin project_dir pn
  let test_dir := pyJoin project_dir (pn ++ ".Tests")
  let csproj_path := pyJoin main_dir (pn ++ ".csproj")
  let test_csproj_path := pyJoin test_dir (pn ++ ".Tests.csproj")
  let sln_path := pyJoin project_dir (pn ++ ".sln")
  let writes :=
    [(csproj_path, write_csproj_content pn target_framework),
     (test_csproj_path, write_test_csproj_content pn target_framework),
     (sln_path, write_solution_content pn (asciiUpper (uuid4 1)) (asciiUpper (uuid4 2)))] ++
    files.map (fun p => (pyJoin main_dir p.1, p.2)) ++
    test_files.map (fun p => (pyJoin test_dir p.1, p.2)) ++
    [(pyJoin project_dir ".gitignore", gitignore_content),
     (pyJoin project_dir "README.md", readme_content pn)]
  let created_files :=
    [csproj_path, test_csproj_path, sln_path] ++
    files.map (fun p => pyJoin main_dir p.1) ++
    test_files.map (fun p => pyJoin test_dir p.1) ++
    [pyJoin project_dir ".gitignore", pyJoin project_dir "README.md"]
  (ToolResult.ok
    ("C# project " ++ aposChar.toString ++ pn ++ aposChar.toString ++ " created successfully")
    (some { project_name := pn, main_dir := main_dir, test_dir := test_dir })
    (some created_files), writes)

/-- A take-while over elements that all satisfy the predicate is the identity. -/
lemma takeWhile_all (p : Char → Bool) :
    ∀ l : List Char, (∀ c ∈ l, p c = true) → l.takeWhile p = l := by
  intro l
  induction l with
  | nil => intro _; rfl
  | cons c t ih =>
    intro h
    rw [List.takeWhile_cons, h c (by simp), ih (fun x hx => h x (by simp [hx]))]
    simp

/-- Take-while walks through a fully-satisfying prefix. -/
lemma takeWhile_append_all (p : Char → Bool) :
    ∀ x y : List Char, (∀ c ∈ x, p c = true) →
      (x ++ y).takeWhile p = x ++ y.takeWhile p := by
  intro x
  induction x with
  | nil => intro y _; rfl
  | cons c t ih =>
    intro y h
    rw [List.cons_append, List.takeWhile_cons, h c (by simp),
      ih y (fun z hz => h z (by simp [hz]))]
    simp

/-- A one-element boolean prefix exposes the head. -/
lemma isPrefixOfL_singleton (c : Char) (l : List Char) (h : isPrefixOfL [c] l = true) :
    ∃ t, l = c :: t := by
  match l with
  | [] => simp [isPrefixOfL] at h
  | d :: t =>
    refine ⟨t, ?_⟩
    simp only [isPrefixOfL, Bool.and_eq_true, decide_eq_true_eq] at h
    rw [h.1]

/-- The posix basename of `join a b` is `b` itself whenever `b` is a nonempty
slash-free component. -/
lemma basename_pyJoin (a b : List Char) (hb : b ≠ []) (hball : ∀ c ∈ b, c ≠ '/') :
    basenameL (pyJoinL a b) = b := by
  have hrev : ∀ c ∈ b.reverse, (fun x => decide (x ≠ '/')) c = true := by
    intro c hc
    simpa using hball c (List.mem_reverse.mp hc)
  have hnp : ¬ (isPrefixOfL ['/'] b = true) := by
    match b, hb with
    | c :: t, _ =>
      have hc : c ≠ '/' := hball c (by simp)
      simp only [isPrefixOfL, Bool.and_eq_true, decide_eq_true_eq]
      intro h
      exact hc h.1.symm
  rw [pyJoinL, if_neg hnp]
  by_cases hsecond : a = [] ∨ isSuffixOfL ['/'] a = true
  · rw [if_pos (by simpa using hsecond)]
    rcases hsecond with ha | ha
    · subst ha
      rw [List.nil_append, basenameL, takeWhile_all _ _ hrev, List.reverse_reverse]
    · obtain ⟨t, ht⟩ := isPrefixOfL_singleton '/' a.reverse (by simpa [isSuffixOfL] using ha)
      rw [basenameL, List.reverse_append, ht, takeWhile_append_all _ _ _ hrev]
      simp [List.takeWhile_cons]
  · rw [if_neg (by simpa using hsecond)]
    rw [basenameL, List.reverse_append, List.reverse_cons, List.append_assoc,
      takeWhile_append_all _ _ _ hrev]
    simp [List.takeWhile_cons]

/-- Claim C8: C# project assembly with one main source file and one test file reports
exactly 7 created paths — main manifest, test manifest, solution, the source
file, the test file, ignore file, readme — and the test manifest's
`ProjectReference` path is `..\NAME\NAME.csproj` for the resolved project
name `NAME`, which is also the leaf name of the main project directory. -/
theorem csharp_generator_seven_paths
    (uuid4 : Nat → String) (project_dir code test_code target_framework : String)
    (f1 c1 f2 c2 : String)
    (hclean : clean_code code "csharp" ≠ "")
    (htc : test_code ≠ "")
    (htclean : clean_code test_code "csharp" ≠ "")
    (hmain : route_split (split_csharp (clean_code code "csharp")) = ([(f1, c1)], []))
    (htest : dictInsertAll [] (split_csharp (clean_code test_code "csharp")) = [(f2, c2)]) :
    (csharp_generator_execute uuid4 project_dir (some code) (some test_code) none
        target_framework).1.files_created
      = [pyJoin (pyJoin project_dir (get_folder_name_cs project_dir))
            (get_folder_name_cs project_dir ++ ".csproj"),
         pyJoin (pyJoin project_dir (get_folder_name_cs project_dir ++ ".Tests"))
            (get_folder_name_cs project_dir ++ ".Tests.csproj"),
         pyJoin project_dir (get_folder_name_cs project_dir ++ ".sln"),
         pyJoin (pyJoin project_dir (get_folder_name_cs project_dir)) f1,
         pyJoin (pyJoin project_dir (get_folder_name_cs project_dir ++ ".Tests")) f2,
         pyJoin project_dir ".gitignore",
         pyJoin project_dir "README.md"] ∧
    (csharp_generator_execute uuid4 project_dir (some code) (some test_code) none
        target_framework).1.files_created.length = 7 ∧
    (csharp_generator_execute uuid4 project_dir (some code) (some test_code) none
        target_framework).1.data
      = some { project_name := get_folder_name_cs project_dir
               main_dir := pyJoin project_dir (get_folder_name_cs project_dir)
               test_dir := pyJoin project_dir (get_folder_name_cs project_dir ++ ".Tests") } ∧
    write_test_csproj_content (get_folder_name_cs project_dir) target_framework
      = test_csproj_before_ref target_framework
        ++ ("..\\" ++ get_folder_name_cs project_dir ++ "\\"
            ++ get_folder_name_cs project_dir ++ ".csproj")
        ++ test_csproj_after_ref ∧
    basenameL (pyJoin project_dir (get_folder_name_cs project_dir)).data
      = (get_folder_name_cs project_dir).data := by
  have hbase : basenameL (pyJoin project_dir (get_folder_name_cs project_dir)).data
      = (get_folder_name_cs project_dir).data := by
    have hok := cs_fix_ok ((folderLeafName project_dir).filter csNameChar)
      (fun c hc => (List.mem_filter.mp hc).2)
    have hok2 : csNameOkL (get_folder_name_cs project_dir).data = true := hok
    simp only [csNameOkL, Bool.and_eq_true, decide_eq_true_eq, List.all_eq_true] at hok2
    refine basename_pyJoin project_dir.data (get_folder_name_cs project_dir).data
      hok2.1.1.1 ?_
    intro c hc hslash
    have := hok2.2 c hc
    rw [hslash] at this
    exact absurd this (by decide)
  refine ⟨?_, ?_, ?_, rfl, hbase⟩ <;>
    simp only [csharp_generator_execute, ToolResult.ok, hclean, htc, htclean, hmain, htest,
      ne_eq, not_false_iff, if_true, ite_true, List.map_cons, List.map_nil] <;>
    rfl

/-- Claim C8 witness for `csharp_generator_seven_paths` on a concrete one-class main
blob and one-class test blob. -/
theorem csharp_generator_seven_paths_witness :
    (csharp_generator_execute (fun _ => "guid") "/out/Proj"
        (some "public class Alpha \x7b \x7d") (some "public class AlphaTests \x7b \x7d")
        none "net10.0").1.files_created
      = ["/out/Proj/Proj/Proj.csproj", "/out/Proj/Proj.Tests/Proj.Tests.csproj",
         "/out/Proj/Proj.sln", "/out/Proj/Proj/Alpha.cs", "/out/Proj/Proj.Tests/AlphaTests.cs",
         "/out/Proj/.gitignore", "/out/Proj/README.md"] ∧
    (csharp_generator_execute (fun _ => "guid") "/out/Proj"
        (some "public class Alpha \x7b \x7d") (some "public class AlphaTests \x7b \x7d")
        none "net10.0").1.files_created.length = 7 := by
  have h := csharp_generator_seven_paths (fun _ => "guid") "/out/Proj"
    "public class Alpha \x7b \x7d" "public class AlphaTests \x7b \x7d" "net10.0"
    "Alpha.cs" "public class Alpha \x7b \x7d" "AlphaTests.cs" "public class AlphaTests \x7b \x7d"
    (by decide) (by decide) (by decide) (by decide) (by decide)
  exact ⟨h.1.trans (by decide), h.2.1⟩

/-! ## `src/tools/build.py`: `BuildTool`

The build tool's external effects are an oracle record `BuildEnv`:
`os.listdir(project_dir)` is `listdir`, the `os.walk` filesystem is the tree
`tree`, and the two `subprocess.run` invocations are `runDotnet` (indexed by
the iteration that performs the call) and `runPyCompile` (indexed by
iteration and file).  A `subprocess.run` call either completes with a return
code and captured output, or raises: `FileNotFoundError` when the tool binary
is absent, `subprocess.TimeoutExpired` when the wall-clock timeout (120 s for
`dotnet build`, 30 s for `py_compile`) expires.  Neither `execute` nor the
build helpers contain a `try`/`except`, so these exceptions propagate; the
embedding returns them in the `Except` error component.  `os.path.relpath` of
an empty path raises `ValueError`.  The embedding of `build_and_fix` and
`_build_csharp` assumes `max_iterations ≥ 1` wherever a theorem needs the
loop body (Python additionally raises `NameError` in `build_and_fix` when
`max_iterations = 0`, a case no claim touches). -/

/-- Exceptions the embedded build code can propagate. -/
inductive PyExn where
  | fileNotFound
  | timeoutExpired
  | valueError
  | typeError
deriving DecidableEq, Repr

/-- Outcome of one `subprocess.run` invocation. -/
inductive RunOutcome where
  | completed (returncode : Int) (stdout stderr : String)
  | toolAbsent
  | timedOut
deriving DecidableEq, Repr

/-- Lift a run outcome into the exception monad. -/
def runToExcept : RunOutcome → Except PyExn (Int × String × String)
  | .completed rc out err => .ok (rc, out, err)
  | .toolAbsent => .error .fileNotFound
  | .timedOut => .error .timeoutExpired

/-- One parsed build diagnostic (the error dict of `_parse_csharp_errors` /
`_parse_python_error`). -/
structure Diag where
  file : String
  line : Nat
  column : Nat
  severity : String
  code : String
  message : String
deriving DecidableEq, Repr

/-- Values stored in the shared metadata mapping by the build tool. -/
inductive MetaVal where
  | diags (errors : List Diag)
  | text (s : String)
deriving DecidableEq, Repr

/-- Embeds `ToolContext` (the `api_key` field, unused by the build tool, is
omitted). -/
structure ToolCtx where
  project_dir : String
  working_files : List (String × String)
  metadata : List (String × MetaVal)
deriving DecidableEq, Repr

/-- Python dict assignment on the metadata mapping. -/
def metaInsert (m : List (String × MetaVal)) (k : String) (v : MetaVal) :
    List (String × MetaVal) :=
  if m.any (fun p => decide (p.1 = k)) then m.map (fun p => if p.1 = k then (k, v) else p)
  else m ++ [(k, v)]

/-- Python dict lookup on the metadata mapping. -/
def metaLookup (m : List (String × MetaVal)) (k : String) : Option MetaVal :=
  (m.find? (fun p => decide (p.1 = k))).map Prod.snd

/-- A directory tree as seen by `os.walk`: a name, subdirectories and plain
files, in listing order. -/
inductive FsTree where
  | dir (name : String) (subdirs : List FsTree) (files : List String)

/-- Name of a tree node. -/
def fsName : FsTree → String
  | .dir n _ _ => n

/-- Oracle record for the build tool's external effects. -/
structure BuildEnv where
  listdir : List String
  tree : FsTree
  runDotnet : Nat → RunOutcome
  runPyCompile : Nat → String → RunOutcome
  cwd : String

/-- Embeds `BuildTool._find_solution_file`: the first directory entry ending
in `.sln`, joined to the project directory. -/
def find_solution_file (listdir : List String) (project_dir : String) : Option String :=
  match listdir.find? (fun f => isSuffixOfL ".sln".data f.data) with
  | some f => some (pyJoin project_dir f)
  | none => none

/-- One match of the C# error pattern
`([^\(]+)\((\d+),(\d+)\):\s+(error|warning)\s+(\w+\d+):\s+(.+)`. -/
structure CsErrMatch where
  filepath : List Char
  lineno : List Char
  colno : List Char
  severity : List Char
  ecode : List Char
  msg : List Char
deriving DecidableEq, Repr

/-- Attempt of the C# error pattern at the current position; the character
classes at each boundary are disjoint, so greedy matching is maximal-run
matching, and the `\w+\d+` code group is the maximal word run, which must end
in a digit. -/
def tryCsErrorAt (r : List Char) : Option (CsErrMatch × Nat) :=
  let fp := r.takeWhile (fun c => decide (c ≠ '('))
  if fp = [] then none
  else
    match r.drop fp.length with
    | '(' :: r1 =>
      let d1 := r1.takeWhile Char.isDigit
      if d1 = [] then none
      else
        match r1.drop d1.length with
        | ',' :: r2 =>
          let d2 := r2.takeWhile Char.isDigit
          if d2 = [] then none
          else
            match r2.drop d2.length with
            | ')' :: ':' :: r3 =>
              let ws1 := r3.takeWhile pySpace
              if ws1 = [] then none
              else
                let r4 := r3.drop ws1.length
                let sev : Option (List Char) :=
                  if isPrefixOfL "error".data r4 then some "error".data
                  else if isPrefixOfL "warning".data r4 then some "warning".data
                  else none
                match sev with
                | none => none
                | some sv =>
                  let r5 := r4.drop sv.length
                  let ws2 := r5.takeWhile pySpace
                  if ws2 = [] then none
                  else
                    let r6 := r5.drop ws2.length
                    let run := r6.takeWhile isWordChar
                    if 2 ≤ run.length ∧ (run.getLast?.map Char.isDigit).getD false = true then
                      match r6.drop run.length with
                      | ':' :: r7 =>
                        let ws3 := r7.takeWhile pySpace
                        if ws3 = [] then none
                        else
                          let r8 := r7.drop ws3.length
                          let msg := r8.takeWhile (fun c => decide (c ≠ '\n'))
                          if msg = [] then none
                          else some (⟨fp, d1, d2, sv, run, msg⟩,
                            fp.length + 1 + d1.length + 1 + d2.length + 2 + ws1.length
                              + sv.length + ws2.length + run.length + 1 + ws3.length + msg.length)
                      | _ => none
                    else none
            | _ => none
        | _ => none
    | _ => none

/-- The `re.finditer` driver for the C# error pattern. -/
def findCsErrors : Nat → List Char → List CsErrMatch
  | 0, _ => []
  | _ + 1, [] => []
  | fuel + 1, l =>
    match tryCsErrorAt l with
    | some (m, consumed) => m :: findCsErrors fuel (l.drop consumed)
    | none =>
      match l with
      | [] => []
      | _ :: t => findCsErrors fuel t

/-- Builds the error dicts of `_parse_csharp_errors` from the regex matches;
`os.path.relpath` raises `ValueError` on an empty (stripped) path. -/
def buildDiagList (cwd project_dir : String) : List CsErrMatch → Except PyExn (List Diag)
  | [] => .ok []
  | m :: rest =>
    match relpathL cwd.data (stripL m.filepath) project_dir.data with
    | none => .error .valueError
    | some rel =>
      match buildDiagList cwd project_dir rest with
      | .error e => .error e
      | .ok ds =>
        .ok ({ file := ⟨rel⟩, line := digitsToNat m.lineno, column := digitsToNat m.colno,
               severity := ⟨m.severity⟩, code := ⟨m.ecode⟩, message := ⟨stripL m.msg⟩ } :: ds)

/-- Embeds `BuildTool._parse_csharp_errors`, including the fallback scan for
lines containing ` error ` (case-insensitively) and `: `. -/
def parse_csharp_errors (cwd : String) (build_output : String) (project_dir : String) :
    Except PyExn (List Diag) :=
  match buildDiagList cwd project_dir (findCsErrors build_output.data.length build_output.data) with
  | .error e => .error e
  | .ok errors =>
    if errors = [] then
      .ok (((splitSepL '\n' build_output.data).filter (fun line =>
          containsSub " error ".data (line.map lowerC) && containsSub ": ".data line)).map
        (fun line => { file := "unknown", line := 0, column := 0, severity := "error",
                       code := "BUILD_ERROR", message := ⟨stripL line⟩ }))
    else .ok errors

/-- Attempt of `File "([^"]+)", line (\d+)` at the current position. -/
def tryPyErrAt (r : List Char) : Option (List Char × List Char) :=
  if isPrefixOfL "File \"".data r then
    let r1 := r.drop 6
    let grp := r1.takeWhile (fun c => decide (c ≠ '"'))
    if grp = [] then none
    else
      match r1.drop grp.length with
      | '"' :: r2 =>
        if isPrefixOfL ", line ".data r2 then
          let d := (r2.drop 7).takeWhile Char.isDigit
          if d = [] then none else some (grp, d)
        else none
      | _ => none
  else none

/-- The `re.search` driver for the Python error citation. -/
def searchPyErr : Nat → List Char → Option (List Char × List Char)
  | 0, _ => none
  | _ + 1, [] => none
  | fuel + 1, l =>
    match tryPyErrAt l with
    | some m => some m
    | none =>
      match l with
      | [] => none
      | _ :: t => searchPyErr fuel t

/-- Embeds `BuildTool._parse_python_error`. -/
def parse_python_error (error_output : String) (filepath : String) : Diag :=
  match searchPyErr error_output.data.length error_output.data with
  | some (_, d) =>
    let lastLine := ((splitSepL '\n' error_output.data).getLast?).getD []
    { file := ⟨basenameL filepath.data⟩, line := digitsToNat d, column := 0,
      severity := "error", code := "SYNTAX_ERROR", message := ⟨stripL lastLine⟩ }
  | none =>
    { file := ⟨basenameL filepath.data⟩, line := 0, column := 0,
      severity := "error", code := "UNKNOWN", message := pyStrip error_output }

/-- One numbered block of `_format_errors_for_llm`. -/
def format_error_block (idx : Nat) (e : Diag) : List String :=
  ["\n" ++ toString idx ++ ". " ++ asciiUpper e.severity ++ " " ++ e.code,
   "   File: " ++ e.file] ++
  (if 0 < e.line then ["   Line: " ++ toString e.line] else []) ++
  ["   Issue: " ++ e.message]

/-- Numbered blocks for all errors (`enumerate(errors, 1)`). -/
def formatBlocks : Nat → List Diag → List String
  | _, [] => []
  | i, e :: rest => format_error_block i e ++ formatBlocks (i + 1) rest

/-- Embeds `BuildTool._format_errors_for_llm`. -/
def format_errors_for_llm (errors : List Diag) : String :=
  if errors = [] then ""
  else
    joinNl (["BUILD ERRORS (fix these in your code):", (⟨repChar '=' 60⟩ : String)]
      ++ formatBlocks 1 errors
      ++ ["\n" ++ (⟨repChar '=' 60⟩ : String),
          "\nPlease provide corrected code that fixes these build errors."])

/-- Data payload of the build results (`build_output` is present only in the
C# result dicts). -/
structure BuildData where
  success : Bool
  iterations : Nat
  build_output : Option String
  errors : List Diag
  errors_for_llm : String
deriving DecidableEq, Repr

/-- Embeds the `for iteration in range(1, max_iterations + 1)` loop of
`_build_csharp` over the remaining iteration numbers.  Returns `some i` in the
first component when the build of iteration `i` succeeded (the `break`), and
`none` when the loop exhausted all iterations; also returns the final
context, `all_errors` and `build_output`. -/
def csIter (env : BuildEnv) (project_dir : String) (N : Nat) :
    List Nat → ToolCtx → List Diag → String →
      Except PyExn (Option Nat × ToolCtx × List Diag × String)
  | [], ctx, allE, out => .ok (none, ctx, allE, out)
  | i :: rest, ctx, allE, out =>
    match runToExcept (env.runDotnet i) with
    | .error e => .error e
    | .ok (rc, so, se) =>
      let bo := so ++ se
      match parse_csharp_errors env.cwd bo project_dir with
      | .error e => .error e
      | .ok errors =>
        if rc = 0 then .ok (some i, ctx, allE, bo)
        else
          let allE2 := allE ++ errors
          let md2 := metaInsert (metaInsert ctx.metadata "build_errors" (MetaVal.diags errors))
            "build_output" (MetaVal.text bo)
          let ctx2 := if i < N then { ctx with metadata := md2 } else ctx
          csIter env project_dir N rest ctx2 allE2 bo

/-- Embeds `BuildTool._build_csharp`. -/
def build_csharp (env : BuildEnv) (ctx : ToolCtx) (project_dir : String)
    (max_iterations : Nat) : Except PyExn (ToolResult BuildData × ToolCtx) :=
  match find_solution_file env.listdir project_dir with
  | none => .ok (ToolResult.fail ("No .sln file found in " ++ project_dir) none, ctx)
  | some _ =>
    match csIter env project_dir max_iterations (List.range' 1 max_iterations) ctx [] "" with
    | .error e => .error e
    | .ok (result, ctx2, allErrors, buildOutput) =>
      match result with
      | some iteration =>
        .ok (ToolResult.ok ("Build successful after " ++ toString iteration ++ " iteration(s)")
          (some { success := true, iterations := iteration, build_output := some buildOutput,
                  errors := [], errors_for_llm := "" }) none, ctx2)
      | none =>
        let errorsForLlm :=
          if 5 < allErrors.length then allErrors.drop (allErrors.length - 5) else allErrors
        let base : ToolResult BuildData :=
          ToolResult.fail ("Build failed after " ++ toString max_iterations ++ " iterations") none
        let bd : BuildData :=
          { success := false
            iterations := max_iterations
            build_output := some buildOutput
            errors := allErrors
            errors_for_llm := format_errors_for_llm errorsForLlm }
        .ok ({ base with data := some bd }, ctx2)

/-- Embeds the `os.walk` scan of `_build_python` with its pruning of hidden
and `__pycache__` directories: `.py` files of the current directory first,
then the kept subdirectories, top-down. -/
def walkPyFiles (path : String) : FsTree → List String
  | .dir _ subdirs files =>
    (files.filter (fun f => isSuffixOfL ".py".data f.data)).map (fun f => pyJoin path f)
      ++ (subdirs.filter (fun t =>
            ¬ (isPrefixOfL ".".data (fsName t).data = true) ∧ fsName t ≠ "__pycache__")).attach.flatMap
          (fun t => walkPyFiles (pyJoin path (fsName t.1)) t.1)
decreasing_by
  have := List.sizeOf_lt_of_mem (List.mem_filter.mp t.2).1
  simp only [FsTree.dir.sizeOf_spec]
  omega

/-- Embeds the per-file syntax-check loop of one `_build_python` iteration. -/
def pyCheckFiles (env : BuildEnv) (iter : Nat) : List String → Except PyExn (List Diag)
  | [] => .ok []
  | f :: rest =>
    match runToExcept (env.runPyCompile iter f) with
    | .error e => .error e
    | .ok (rc, _, errText) =>
      match pyCheckFiles env iter rest with
      | .error e => .error e
      | .ok ds => .ok ((if rc ≠ 0 then [parse_python_error errText f] else []) ++ ds)

/-- Embeds the iteration loop of `_build_python`; the returned flag is the
`success` variable, which is initialized `True` and never assigned `False`,
so loop exhaustion still reports success. -/
def pyIter (env : BuildEnv) (pyFiles : List String) (N : Nat) :
    List Nat → ToolCtx → List Diag → Except PyExn (Bool × ToolCtx × List Diag)
  | [], ctx, allE => .ok (true, ctx, allE)
  | i :: rest, ctx, allE =>
    match pyCheckFiles env i pyFiles with
    | .error e => .error e
    | .ok errors =>
      if errors = [] then .ok (true, ctx, allE)
      else
        let allE2 := allE ++ errors
        let ctx2 :=
          if i < N then
            { ctx with metadata := metaInsert ctx.metadata "build_errors" (.diags errors) }
          else ctx
        pyIter env pyFiles N rest ctx2 allE2

/-- Embeds `BuildTool._build_python`.  The failure branch after the loop is
dead code in the source (`success` is never set to `False`); reaching it
would raise `TypeError`, because `ToolResult.fail` accepts no `data` keyword
argument. -/
def build_python (env : BuildEnv) (ctx : ToolCtx) (project_dir : String)
    (max_iterations : Nat) : Except PyExn (ToolResult BuildData × ToolCtx) :=
  let pyFiles := walkPyFiles project_dir env.tree
  if pyFiles = [] then
    .ok (ToolResult.fail ("No Python files found in " ++ project_dir) none, ctx)
  else
    match pyIter env pyFiles max_iterations (List.range' 1 max_iterations) ctx [] with
    | .error e => .error e
    | .ok (success, ctx2, _) =>
      if success then
        .ok (ToolResult.ok "Python validation successful"
          (some { success := true, iterations := 1, build_output := none, errors := [],
                  errors_for_llm := "" }) none, ctx2)
      else .error .typeError

/-- Embeds `BuildTool.execute`, including the `project_dir or
context.project_dir` truthiness default. -/
def build_tool_execute (env : BuildEnv) (ctx : ToolCtx) (project_dir : Option String)
    (language : String) (max_iterations : Nat) :
    Except PyExn (ToolResult BuildData × ToolCtx) :=
  let pd :=
    match project_dir with
    | some p => if p = "" then ctx.project_dir else p
    | none => ctx.project_dir
  if language = "csharp" then build_csharp env ctx pd max_iterations
  else if language = "python" then build_python env ctx pd max_iterations
  else .ok (ToolResult.fail ("Unsupported language: " ++ language) none, ctx)

deriving instance DecidableEq for Except

/-- Empty tool context over the project directory `/p`, used by the concrete
build scenarios. -/
def ctxEmpty : ToolCtx := { project_dir := "/p", working_files := [], metadata := [] }

/-- Environment whose build invocations all time out. -/
def envTimedOut : BuildEnv :=
  { listdir := ["app.sln"], tree := FsTree.dir "p" [] ["m.py"],
    runDotnet := fun _ => RunOutcome.timedOut,
    runPyCompile := fun _ _ => RunOutcome.timedOut, cwd := "/" }

/-- Environment whose build tool binaries are absent. -/
def envAbsent : BuildEnv :=
  { listdir := ["app.sln"], tree := FsTree.dir "p" [] ["m.py"],
    runDotnet := fun _ => RunOutcome.toolAbsent,
    runPyCompile := fun _ _ => RunOutcome.toolAbsent, cwd := "/" }

/-- Environment whose C# build always completes with exit code 1 and empty
output. -/
def envFailBuild : BuildEnv :=
  { listdir := ["app.sln"], tree := FsTree.dir "p" [] ["m.py"],
    runDotnet := fun _ => RunOutcome.completed 1 "" "",
    runPyCompile := fun _ _ => RunOutcome.completed 0 "" "", cwd := "/" }

/-- Presence of a key in the metadata mapping, phrased by list membership. -/
lemma metaLookup_ne_none_iff (m : List (String × MetaVal)) (k : String) :
    metaLookup m k ≠ none ↔ ∃ p ∈ m, p.1 = k := by
  rw [metaLookup]
  constructor
  · intro h
    rcases ho : m.find? (fun p => decide (p.1 = k)) with _ | p
    · rw [ho] at h; simp at h
    · have hp := List.find?_some ho
      exact ⟨p, List.mem_of_find?_eq_some ho, by simpa using hp⟩
  · intro ⟨p, hp, hpk⟩ h
    rw [Option.map_eq_none'] at h
    rw [List.find?_eq_none] at h
    exact absurd (by simpa using hpk) (h p hp)

/-- Inserting any key preserves key presence, and inserting the key itself
establishes it. -/
lemma metaLookup_insert_pres (m : List (String × MetaVal)) (k k2 : String) (v : MetaVal)
    (h : metaLookup m k ≠ none ∨ k = k2) :
    metaLookup (metaInsert m k2 v) k ≠ none := by
  rw [metaLookup_ne_none_iff] at *
  rw [metaInsert]
  by_cases hany : m.any (fun p => decide (p.1 = k2)) = true
  · rw [if_pos hany]
    have hkeys : ∀ p : String × MetaVal, (if p.1 = k2 then (k2, v) else p).1 = p.1 := by
      intro p
      by_cases hp : p.1 = k2
      · rw [if_pos hp, hp]
      · rw [if_neg hp]
    have hex : ∃ p ∈ m, p.1 = k := by
      rcases h with h | rfl
      · exact h
      · rcases List.any_eq_true.mp hany with ⟨p, hp, hpk⟩
        exact ⟨p, hp, by simpa using hpk⟩
    rcases hex with ⟨p, hp, hpk⟩
    refine ⟨if p.1 = k2 then (k2, v) else p, List.mem_map.mpr ⟨p, hp, rfl⟩, ?_⟩
    rw [hkeys p, hpk]
  · rw [if_neg hany]
    rcases h with ⟨p, hp, hpk⟩ | rfl
    · exact ⟨p, List.mem_append_left _ hp, hpk⟩
    · exact ⟨(k, v), List.mem_append_right _ (by simp), rfl⟩

/-- The C# build loop never removes the `build_errors` metadata entry. -/
lemma csIter_preserves_key (env : BuildEnv) (pd : String) (N : Nat) :
    ∀ (l : List Nat) (ctx : ToolCtx) (allE : List Diag) (out : String) (r : Option Nat)
      (ctx2 : ToolCtx) (aE : List Diag) (o : String),
      metaLookup ctx.metadata "build_errors" ≠ none →
      csIter env pd N l ctx allE out = .ok (r, ctx2, aE, o) →
      metaLookup ctx2.metadata "build_errors" ≠ none := by
  intro l
  induction l with
  | nil =>
    intro ctx allE out r ctx2 aE o hk h
    rw [csIter] at h
    cases h
    exact hk
  | cons i rest ih =>
    intro ctx allE out r ctx2 aE o hk h
    rw [csIter] at h
    rcases henv : env.runDotnet i with ⟨rc, so, se⟩ | _ | _ <;> rw [henv] at h <;>
      simp only [runToExcept] at h
    · rcases hparse : parse_csharp_errors env.cwd (so ++ se) pd with e | errors <;>
        rw [hparse] at h <;> dsimp only at h
      · cases h
      · by_cases hrc : rc = 0
        · rw [if_pos hrc] at h
          cases h
          exact hk
        · rw [if_neg hrc] at h
          by_cases hi : i < N
          · rw [if_pos hi] at h
            refine ih _ _ _ _ _ _ _ ?_ h
            exact metaLookup_insert_pres _ _ _ _
              (Or.inl (metaLookup_insert_pres _ _ _ _ (Or.inl hk)))
          · rw [if_neg hi] at h
            exact ih _ _ _ _ _ _ _ hk h
    · cases h
    · cases h

/-- When the first loop iteration is not the last and the loop exhausts all
iterations, the `build_errors` metadata entry has been written. -/
lemma csIter_none_first_lt (env : BuildEnv) (pd : String) (N i : Nat) (rest : List Nat)
    (ctx : ToolCtx) (allE : List Diag) (out : String) (ctx2 : ToolCtx) (aE : List Diag)
    (o : String) (hi : i < N)
    (h : csIter env pd N (i :: rest) ctx allE out = .ok (none, ctx2, aE, o)) :
    metaLookup ctx2.metadata "build_errors" ≠ none := by
  rw [csIter] at h
  rcases henv : env.runDotnet i with ⟨rc, so, se⟩ | _ | _ <;> rw [henv] at h <;>
    simp only [runToExcept] at h
  · rcases hparse : parse_csharp_errors env.cwd (so ++ se) pd with e | errors <;>
      rw [hparse] at h <;> dsimp only at h
    · cases h
    · by_cases hrc : rc = 0
      · rw [if_pos hrc] at h
        cases h
      · rw [if_neg hrc, if_pos hi] at h
        refine csIter_preserves_key env pd N rest _ _ _ _ _ _ _ ?_ h
        exact metaLookup_insert_pres _ _ _ _
          (Or.inl (metaLookup_insert_pres _ _ _ _ (Or.inr rfl)))
  · cases h
  · cases h

/-- Claim C6, amended: whenever the C# build verifier (solution present)
returns a `success = false` result with `max_iterations ≥ 2`, the
`build_errors` key has been written into the shared context metadata; with
`max_iterations = 1` the loop's only iteration is also its last and the key
is never written. -/
theorem build_csharp_failure_writes_metadata (env : BuildEnv) (ctx : ToolCtx) (pd : String)
    (N : Nat) (res : ToolResult BuildData) (ctx2 : ToolCtx)
    (hN : 2 ≤ N) (hpd : pd ≠ "")
    (hsln : find_solution_file env.listdir pd ≠ none)
    (h : build_tool_execute env ctx (some pd) "csharp" N = .ok (res, ctx2))
    (hf : res.success = false) :
    metaLookup ctx2.metadata "build_errors" ≠ none := by
  rw [build_tool_execute] at h
  rw [if_neg hpd] at h
  rw [if_pos rfl] at h
  rw [build_csharp] at h
  rcases hfind : find_solution_file env.listdir pd with _ | s
  · exact absurd hfind hsln
  · rw [hfind] at h
    dsimp only at h
    rcases hiter : csIter env pd N (List.range' 1 N) ctx [] "" with e | ⟨r, ctx3, aE, o⟩ <;>
      rw [hiter] at h <;> dsimp only at h
    · cases h
    · rcases r with _ | i <;> dsimp only at h
      · obtain ⟨m, rfl⟩ : ∃ m, N = m + 2 := ⟨N - 2, by omega⟩
        have hrange : List.range' 1 (m + 2) = 1 :: List.range' 2 (m + 1) := by
          rw [show m + 2 = (m + 1) + 1 from rfl, List.range'_succ]
        rw [hrange] at hiter
        have hkey := csIter_none_first_lt env pd (m + 2) 1 (List.range' 2 (m + 1))
          ctx [] "" ctx3 aE o (by omega) hiter
        have hctx : ctx3 = ctx2 := by
          simp only [Except.ok.injEq, Prod.mk.injEq] at h
          exact h.2
        rw [← hctx]
        exact hkey
      · simp only [Except.ok.injEq, Prod.mk.injEq] at h
        rw [← h.1] at hf
        simp [ToolResult.ok] at hf

/-- Claim C6 counterexample to the claim as stated: with `max_iterations = 1`
(the value the repair loop uses), a failing C# build returns `success =
false` yet the context metadata never receives a `build_errors` entry — the
write only happens when `iteration < max_iterations`. -/
theorem build_csharp_max1_metadata_missing :
    build_tool_execute envFailBuild ctxEmpty (some "/p") "csharp" 1
      = .ok ({ success := false
               message := "Build failed after 1 iterations"
               data := some { success := false
                              iterations := 1
                              build_output := some ""
                              errors := []
                              errors_for_llm := "" }
               files_created := []
               errors := ["Build failed after 1 iterations"] },
             { project_dir := "/p", working_files := [], metadata := [] }) ∧
    metaLookup ({ project_dir := "/p", working_files := [], metadata := [] }
      : ToolCtx).metadata "build_errors" = none := by
  refine ⟨by decide, rfl⟩

/-- Claim C6 witness for `build_csharp_failure_writes_metadata` at `max_iterations = 2`
with an always-failing build. -/
theorem build_csharp_failure_writes_metadata_witness :
    metaLookup ({ project_dir := "/p"
                  working_files := []
                  metadata := [("build_errors", MetaVal.diags []),
                    ("build_output", MetaVal.text "")] }
        : ToolCtx).metadata "build_errors" ≠ none := by
  refine build_csharp_failure_writes_metadata envFailBuild ctxEmpty "/p" 2
    { success := false
      message := "Build failed after 2 iterations"
      data := some { success := false
                     iterations := 2
                     build_output := some ""
                     errors := []
                     errors_for_llm := "" }
      files_created := []
      errors := ["Build failed after 2 iterations"] }
    { project_dir := "/p"
      working_files := []
      metadata := [("build_errors", MetaVal.diags []), ("build_output", MetaVal.text "")] }
    (by omega) (by decide) (by decide) (by decide) rfl

/-- Claim C3 counterexample to the never-raises claim as stated: a C# build whose
`dotnet build` invocation exceeds the 120 s timeout propagates
`subprocess.TimeoutExpired` out of `execute` (an exception, not a failure
`ToolResult`), and an absent tool propagates `FileNotFoundError`. -/
theorem build_execute_timeout_raises :
    build_tool_execute envTimedOut ctxEmpty (some "/p") "csharp" 5
      = .error PyExn.timeoutExpired ∧
    build_tool_execute envAbsent ctxEmpty (some "/p") "csharp" 5
      = .error PyExn.fileNotFound := by
  refine ⟨by decide, by decide⟩

/-- Claim C3, amended: `execute` passes the 120 s / 30 s timeouts to the
process invocations, but when the first build or syntax-check invocation
raises (timeout or missing binary), the exception propagates out of
`execute`; no failure `ToolResult` is produced in those cases. -/
theorem build_tool_faults_propagate (env : BuildEnv) (ctx : ToolCtx) (pd : String) (N : Nat)
    (hN : 1 ≤ N) (hpd : pd ≠ "") :
    (find_solution_file env.listdir pd ≠ none →
      (env.runDotnet 1 = RunOutcome.timedOut →
        build_tool_execute env ctx (some pd) "csharp" N = .error PyExn.timeoutExpired) ∧
      (env.runDotnet 1 = RunOutcome.toolAbsent →
        build_tool_execute env ctx (some pd) "csharp" N = .error PyExn.fileNotFound)) ∧
    (∀ f rest, walkPyFiles pd env.tree = f :: rest →
      (env.runPyCompile 1 f = RunOutcome.timedOut →
        build_tool_execute env ctx (some pd) "python" N = .error PyExn.timeoutExpired) ∧
      (env.runPyCompile 1 f = RunOutcome.toolAbsent →
        build_tool_execute env ctx (some pd) "python" N = .error PyExn.fileNotFound)) := by
  obtain ⟨m, rfl⟩ : ∃ m, N = m + 1 := ⟨N - 1, by omega⟩
  have hrange : List.range' 1 (m + 1) = 1 :: List.range' 2 m := List.range'_succ 1 m 1
  constructor
  · intro hsln
    rcases hfind : find_solution_file env.listdir pd with _ | s
    · exact absurd hfind hsln
    · constructor <;> intro hrun <;>
        rw [build_tool_execute, if_neg hpd, if_pos rfl, build_csharp, hfind, hrange,
          csIter, hrun] <;> rfl
  · intro f rest hwalk
    constructor <;> intro hrun <;>
      rw [build_tool_execute, if_neg hpd] <;>
      rw [if_neg (by decide), if_pos rfl, build_python, hwalk] <;>
      rw [if_neg (by simp), hrange, pyIter, pyCheckFiles, hrun] <;> rfl

/-- Claim C3 witness for `build_tool_faults_propagate`: a missing `python` binary on
the first per-file syntax check propagates `FileNotFoundError`, and a missing
`dotnet` binary propagates out of the C# branch. -/
theorem build_tool_faults_propagate_witness :
    build_tool_execute envAbsent ctxEmpty (some "/p") "python" 5
      = .error PyExn.fileNotFound ∧
    build_tool_execute envAbsent ctxEmpty (some "/p") "csharp" 5
      = .error PyExn.fileNotFound := by
  have h := build_tool_faults_propagate envAbsent ctxEmpty "/p" 5 (by omega) (by decide)
  have hwalk : walkPyFiles "/p" envAbsent.tree = ["/p/m.py"] := by
    rw [show envAbsent.tree = FsTree.dir "p" [] ["m.py"] from rfl, walkPyFiles]
    decide
  exact ⟨(h.2 "/p/m.py" [] hwalk).2 rfl, (h.1 (by decide)).2 rfl⟩
